import Mathlib

/-!
Verification development for the resource-correlation engine of the
`f5-xc-ce-terraform` diagram-generator tool
(`tools/diagram-generator/src/diagram_generator/correlation.py`,
`utils.py`, `models.py`, `exceptions.py`).

The Python code is shallowly embedded: the dynamically typed record
payloads (`values`, `properties`, `spec`, `metadata`) become an explicit
`Value` type, the per-operation dynamic-type errors (AttributeError,
TypeError, ...) become an explicit `PyErr`, and `ResourceCorrelator.correlate`
becomes a function into `Except CorrelationError (CorrelatedResources × edges)`
that mirrors the code's single top-level `try/except` wrapping.
-/

namespace Correlation

mutual
/-- A dynamically typed Python value as it occurs in the JSON-like record
payloads handled by the correlator.  Mutual with its list and map forms so
that all recursions stay structural (and hence kernel-reducible). -/
inductive Value where
  | vStr : String → Value
  | vInt : Int → Value
  | vNone : Value
  | vMap : ValueMap → Value
  | vList : ValueList → Value

inductive ValueList where
  | nil : ValueList
  | cons : Value → ValueList → ValueList

inductive ValueMap where
  | nil : ValueMap
  | cons : String → Value → ValueMap → ValueMap
end

/-- Entries of a map, in insertion order (mirrors `dict.items()`). -/
def ValueMap.entries : ValueMap → List (String × Value)
  | .nil => []
  | .cons k v rest => (k, v) :: rest.entries

/-- First-match key lookup (Python dicts have unique keys). -/
def ValueMap.lookup : ValueMap → String → Option Value
  | .nil, _ => none
  | .cons k v rest, key => if k == key then some v else rest.lookup key

/-- `d.get(key, default)` on a genuine dict. -/
def ValueMap.getD (m : ValueMap) (k : String) (d : Value) : Value :=
  (m.lookup k).getD d

def ValueList.toList : ValueList → List Value
  | .nil => []
  | .cons v rest => v :: rest.toList

def ValueList.ofList : List Value → ValueList
  | [] => .nil
  | v :: rest => .cons v (ValueList.ofList rest)

def ValueMap.ofList : List (String × Value) → ValueMap
  | [] => .nil
  | (k, v) :: rest => .cons k v (ValueMap.ofList rest)

/-- Python exceptions that the correlator's dynamic field accesses can raise. -/
inductive PyErr where
  | attributeError : String → PyErr
  | typeError : String → PyErr
  | keyError : String → PyErr
deriving DecidableEq, Repr

/-- `CorrelationError` from `exceptions.py`: the single typed error the
top-level `except` clause of `correlate` raises, wrapping the cause. -/
structure CorrelationError where
  cause : PyErr
deriving DecidableEq, Repr

/-- ASCII lowering of a typed string field (`.lower()` on a `str`). -/
def strLower (s : String) : String :=
  String.mk (s.data.map Char.toLower)

/-- Python `x.lower()`: succeeds only on strings (ASCII lowering; the
payloads in scope are ASCII). -/
def pyLower : Value → Except PyErr String
  | .vStr s => .ok (strLower s)
  | _ => .error (.attributeError "lower")

/-- Python `x.items()`: succeeds only on dicts. -/
def pyItems : Value → Except PyErr (List (String × Value))
  | .vMap m => .ok m.entries
  | _ => .error (.attributeError "items")

/-- Python `for x in v`: lists yield items, strings yield characters,
dicts yield keys, anything else raises `TypeError`. -/
def pyIter : Value → Except PyErr (List Value)
  | .vList l => .ok l.toList
  | .vStr s => .ok (s.data.map fun c => .vStr (String.mk [c]))
  | .vMap m => .ok (m.entries.map fun kv => .vStr kv.1)
  | _ => .error (.typeError "not iterable")

/-- Whether `needle` occurs as a contiguous substring of `hay`
(Python `needle in hay` on strings). -/
def charsSubstr (needle hay : List Char) : Bool :=
  match hay with
  | [] => needle.isEmpty
  | _ :: rest => needle.isPrefixOf hay || charsSubstr needle rest

/-- Python `key in v` for a string key: dict key membership, string
substring test, list element equality; raises on non-containers. -/
def pyContains (needle : String) : Value → Except PyErr Bool
  | .vMap m => .ok (m.lookup needle).isSome
  | .vStr s => .ok (charsSubstr needle.data s.data)
  | .vList l => .ok (l.toList.any fun x => match x with
      | .vStr s => s == needle
      | _ => false)
  | _ => .error (.typeError "argument not iterable")

/-- Python `v[key]` subscription with a string key. -/
def pySubscript : Value → String → Except PyErr Value
  | .vMap m, k => match m.lookup k with
      | some v => .ok v
      | none => .error (.keyError k)
  | .vStr _, _ => .error (.typeError "string indices must be integers")
  | .vList _, _ => .error (.typeError "list indices must be integers")
  | _, _ => .error (.typeError "not subscriptable")

/-- Python `v.get(key, default)`: only dicts have `.get`. -/
def pyGet (v : Value) (k : String) (d : Value) : Except PyErr Value :=
  match v with
  | .vMap m => .ok (m.getD k d)
  | _ => .error (.attributeError "get")

/-- Whether a value is hashable (usable as a `set` element or inside a
dict key tuple): strings, ints and `None` are; dicts and lists are not. -/
def Value.hashable : Value → Bool
  | .vStr _ => true
  | .vInt _ => true
  | .vNone => true
  | .vMap _ => false
  | .vList _ => false

/-- Python `==` restricted to hashable values (the only comparisons the
correlator performs between set elements / dict-key tuple components). -/
def hEq : Value → Value → Bool
  | .vStr a, .vStr b => a == b
  | .vInt a, .vInt b => a == b
  | .vNone, .vNone => true
  | _, _ => false

/-- Python `set.add`: rejects unhashable values, otherwise inserts
without duplicating. -/
def pySetAdd (s : List Value) (v : Value) : Except PyErr (List Value) :=
  if v.hashable then
    .ok (if s.any (hEq · v) then s else s ++ [v])
  else
    .error (.typeError "unhashable type")

/-! ### `utils.extract_ip_addresses`: the IPv4 regex scan

`extract_ip_addresses` runs `re.findall(r"\b(?:\d{1,3}\.){3}\d{1,3}\b", s)`
over every string the recursive traversal visits.  For this pattern the
regex engine's greedy matching with backtracking collapses to: a group
`\d{1,3}\.` matches exactly when the maximal digit run at the position has
length 1..3 and is followed by `.`; the final `\d{1,3}\b` matches exactly
when the maximal digit run has length 1..3 and is followed by a non-word
character or the end; the leading `\b` holds exactly when the previous
character is absent or a non-word character.  `re.findall` scans left to
right and resumes after each match. -/

/-- Python `\w` on the ASCII payloads in scope. -/
def isWordChar (c : Char) : Bool :=
  c.isAlphanum || c == '_'

/-- Length of the maximal leading digit run. -/
def digitRun : List Char → Nat
  | [] => 0
  | c :: rest => if c.isDigit then digitRun rest + 1 else 0

/-- Match one `\d{1,3}\.` group at the front; returns the rest on success. -/
def matchOctetDot (cs : List Char) : Option (List Char) :=
  let k := digitRun cs
  if 1 ≤ k ∧ k ≤ 3 then
    match cs.drop k with
    | '.' :: rest => some rest
    | _ => none
  else none

/-- Match the final `\d{1,3}\b` at the front; returns the rest on success. -/
def matchFinalOctet (cs : List Char) : Option (List Char) :=
  let k := digitRun cs
  if 1 ≤ k ∧ k ≤ 3 then
    match cs.drop k with
    | [] => some []
    | c :: rest => if isWordChar c then none else some (c :: rest)
  else none

/-- Attempt the whole IPv4 pattern (without the leading `\b`) at the front;
returns the suffix after the match. -/
def matchIpAt (cs : List Char) : Option (List Char) :=
  match matchOctetDot cs with
  | none => none
  | some r1 =>
    match matchOctetDot r1 with
    | none => none
    | some r2 =>
      match matchOctetDot r2 with
      | none => none
      | some r3 => matchFinalOctet r3

/-- The characters consumed by a successful match (the matched text). -/
def matchedText (cs rest : List Char) : String :=
  String.mk (cs.take (cs.length - rest.length))

/-- The `re.findall` scan loop: `prev` is the character before the current
position (`none` at the start of the string); fuel is bounded by the
remaining length so the recursion is structural. -/
def scanIps (fuel : Nat) (prev : Option Char) (cs : List Char) : List String :=
  match fuel with
  | 0 => []
  | fuel + 1 =>
    match cs with
    | [] => []
    | c :: rest =>
      let boundary := match prev with
        | none => true
        | some p => !isWordChar p
      if boundary then
        match matchIpAt cs with
        | some after =>
            matchedText cs after :: scanIps fuel (some '9') after
        | none => scanIps fuel (some c) rest
      else scanIps fuel (some c) rest

/-- `re.findall` of the IPv4 pattern over a string. -/
def ipFindall (s : String) : List String :=
  scanIps (s.data.length + 1) none s.data

mutual
/-- `search_dict` of `extract_ip_addresses`: scan every value of a dict. -/
def searchMap : ValueMap → List String
  | .nil => []
  | .cons _ v rest => searchValue v ++ searchMap rest

/-- One dict value: strings are regex-scanned, dicts recursed into, lists
have their dict and string items handled — any other item (including a
nested list) is ignored, exactly as in the source. -/
def searchValue : Value → List String
  | .vStr s => ipFindall s
  | .vMap m => searchMap m
  | .vList l => searchListItems l
  | _ => []

/-- The `isinstance(value, list)` branch of `search_dict`: only dict and
string items of the list are examined. -/
def searchListItems : ValueList → List String
  | .nil => []
  | .cons item rest =>
    (match item with
     | .vMap m => searchMap m
     | .vStr s => ipFindall s
     | _ => []) ++ searchListItems rest
end

/-- `utils.extract_ip_addresses`: recursive scan then `list(set(ips))`. -/
def extract_ip_addresses (m : ValueMap) : List String :=
  (searchMap m).dedup

/-- `utils.sanitize_resource_id`: replace `.`, `[`, `]`, `/` by `_`. -/
def sanitize_resource_id (resource_id : String) : String :=
  String.mk (resource_id.data.map fun c =>
    if c == '.' || c == '[' || c == ']' || c == '/' then '_' else c)

/-! ### Data model (`models.py`) -/

/-- `TerraformResource` (a Declared record). -/
structure TerraformResource where
  type : String
  name : String
  address : String
  values : ValueMap
  depends_on : List String

/-- `AzureResource` (an Observed-Cloud record); `tags` is the typed
`dict[str, str]` enforced by the model, `properties` is open. -/
structure AzureResource where
  id : String
  name : String
  type : String
  location : String
  resource_group : String
  tags : List (String × String)
  properties : ValueMap

/-- `F5XCResource` (an Observed-Edge record); `ns` embeds the source's
`namespace` field, which is a reserved word in Lean. -/
structure F5XCResource where
  type : String
  ns : String
  name : String
  spec : ValueMap
  metadata : ValueMap

/-- `RelationshipType` enum. -/
inductive RelationshipType where
  | terraform_dependency
  | terraform_azure
  | f5xc_origin_to_azure_vm
  | f5xc_site_to_azure_vnet
  | generic_dependency
deriving DecidableEq, Repr

instance : BEq RelationshipType := ⟨fun a b => decide (a = b)⟩

/-- `ResourceRelationship`. -/
structure ResourceRelationship where
  source_id : String
  target_id : String
  relationship_type : RelationshipType
  metadata : List (String × Value)

/-- `ConfigurationDrift`. -/
structure ConfigurationDrift where
  resource_address : String
  drift_type : String
  terraform_value : Value
  azure_value : Value
  details : String

/-- One entry of the `resources` list of the result (the `model_dump()`
of a record, keeping its source tag). -/
inductive DumpedResource where
  | tf : TerraformResource → DumpedResource
  | az : AzureResource → DumpedResource
  | fx : F5XCResource → DumpedResource

/-- `CorrelatedResources`. -/
structure CorrelatedResources where
  resources : List DumpedResource
  relationships : List ResourceRelationship
  drift : List ConfigurationDrift

/-- The three correlation options of `ResourceCorrelator.__init__`. -/
structure Options where
  match_by_tags : Bool
  match_by_ip : Bool
  enable_drift_detection : Bool

/-! ### Graph construction (`_add_resources_to_graph`) -/

/-- The record attached to a graph node together with its `source` tag. -/
inductive NodeRecord where
  | tf : TerraformResource → NodeRecord
  | az : AzureResource → NodeRecord
  | fx : F5XCResource → NodeRecord

/-- `networkx.DiGraph.add_node`: adding an existing node id overwrites
its attached attributes; a new id is appended. -/
def addNode (nodes : List (String × NodeRecord)) (id : String) (rec : NodeRecord) :
    List (String × NodeRecord) :=
  if nodes.any (·.1 == id) then
    nodes.map fun p => if p.1 == id then (id, rec) else p
  else
    nodes ++ [(id, rec)]

/-- The F5 XC correlation key `f"{namespace}/{type}/{name}"`. -/
def f5xcKey (r : F5XCResource) : String :=
  r.ns ++ "/" ++ r.type ++ "/" ++ r.name

/-- `_add_resources_to_graph`: one node per record, Terraform first,
then Azure, then F5 XC, each keyed by its sanitized correlation key. -/
def buildNodes (tf : List TerraformResource) (az : List AzureResource)
    (fx : List F5XCResource) : List (String × NodeRecord) :=
  let n1 := tf.foldl (fun acc r => addNode acc (sanitize_resource_id r.address) (.tf r)) []
  let n2 := az.foldl (fun acc r => addNode acc (sanitize_resource_id r.id) (.az r)) n1
  fx.foldl (fun acc r => addNode acc (sanitize_resource_id (f5xcKey r)) (.fx r)) n2

/-- The node-id set used for the `target_id in self.graph` tests. -/
def nodeIds (tf : List TerraformResource) (az : List AzureResource)
    (fx : List F5XCResource) : List String :=
  (buildNodes tf az fx).map (·.1)

/-! ### Step 2: `_correlate_terraform_dependencies` -/

/-- The relationship built for one `depends_on` entry. -/
def mkDepRel (r : TerraformResource) (dep : String) : ResourceRelationship :=
  { source_id := sanitize_resource_id r.address
    target_id := sanitize_resource_id dep
    relationship_type := .terraform_dependency
    metadata := [("depends_on", .vStr dep)] }

/-- Relationship list of `_correlate_terraform_dependencies`: one entry per
`(record, dependency)` pair, whether or not the target exists. -/
def depRels (tf : List TerraformResource) : List ResourceRelationship :=
  tf.flatMap fun r => r.depends_on.map (mkDepRel r)

/-- Graph edges of `_correlate_terraform_dependencies`: only added when the
target id is a node. -/
def depEdges (tf : List TerraformResource) (ids : List String) :
    List (String × String) :=
  tf.flatMap fun r => r.depends_on.filterMap fun dep =>
    if ids.contains (sanitize_resource_id dep) then
      some (sanitize_resource_id r.address, sanitize_resource_id dep)
    else none

/-! ### Step 3: `_correlate_terraform_to_azure` -/

/-- Python dict comprehension `{r.id.lower(): r for r in az}`: later
entries overwrite earlier ones on equal keys. -/
def insertOverwrite (acc : List (String × AzureResource)) (k : String)
    (a : AzureResource) : List (String × AzureResource) :=
  if acc.any (·.1 == k) then
    acc.map fun p => if p.1 == k then (k, a) else p
  else
    acc ++ [(k, a)]

/-- The `azure_lookup` dict keyed by lower-cased Azure resource id. -/
def buildAzureLookup (az : List AzureResource) : List (String × AzureResource) :=
  az.foldl (fun acc a => insertOverwrite acc (strLower a.id) a) []

/-- First-match association lookup (keys are unique by construction). -/
def azAssoc : List (String × AzureResource) → String → Option AzureResource
  | [], _ => none
  | (k, a) :: rest, key => if k == key then some a else azAssoc rest key

/-- The relationship `_correlate_terraform_to_azure` builds on a hit. -/
def mkTfAzRel (r : TerraformResource) (a : AzureResource) (azure_id : String) :
    ResourceRelationship :=
  { source_id := sanitize_resource_id r.address
    target_id := sanitize_resource_id a.id
    relationship_type := .terraform_azure
    metadata := [("azure_id", .vStr azure_id),
                 ("terraform_type", .vStr r.type),
                 ("azure_type", .vStr a.type)] }

/-- The per-record loop of `_correlate_terraform_to_azure`; the
`values.get("id", "").lower()` access raises on a non-string `id`. -/
def tfAzStep (lookup : List (String × AzureResource)) (ids : List String) :
    List TerraformResource →
    Except PyErr (List ResourceRelationship × List (String × String))
  | [] => .ok ([], [])
  | r :: rest =>
    match pyLower (r.values.getD "id" (.vStr "")) with
    | .error e => .error e
    | .ok azure_id =>
      match tfAzStep lookup ids rest with
      | .error e => .error e
      | .ok (rs, es) =>
        match (if azure_id == "" then none else azAssoc lookup azure_id) with
        | some a =>
          .ok (mkTfAzRel r a azure_id :: rs,
            if ids.contains (sanitize_resource_id a.id) then
              (sanitize_resource_id r.address, sanitize_resource_id a.id) :: es
            else es)
        | none => .ok (rs, es)

/-! ### Step 4: `_correlate_f5xc_to_azure` -/

/-- The origin-IP set extraction loop of `_match_origin_pool_to_vms`:
`public_ip.ip` is taken when a `public_ip` key is present, else
`private_ip.ip` when a `private_ip` key is present. -/
def originIpsStep : List Value → List Value → Except PyErr (List Value)
  | [], acc => .ok acc
  | origin :: rest, acc =>
    match pyContains "public_ip" origin with
    | .error e => .error e
    | .ok true =>
      match pySubscript origin "public_ip" with
      | .error e => .error e
      | .ok v =>
        match pyGet v "ip" (.vStr "") with
        | .error e => .error e
        | .ok ip =>
          match pySetAdd acc ip with
          | .error e => .error e
          | .ok acc2 => originIpsStep rest acc2
    | .ok false =>
      match pyContains "private_ip" origin with
      | .error e => .error e
      | .ok true =>
        match pySubscript origin "private_ip" with
        | .error e => .error e
        | .ok v =>
          match pyGet v "ip" (.vStr "") with
          | .error e => .error e
          | .ok ip =>
            match pySetAdd acc ip with
            | .error e => .error e
            | .ok acc2 => originIpsStep rest acc2
      | .ok false => originIpsStep rest acc

/-- The relationship built for one matching (origin pool, VM) pair. -/
def mkPoolVmRel (pool : F5XCResource) (vm : AzureResource)
    (matched : List Value) : ResourceRelationship :=
  { source_id := sanitize_resource_id (f5xcKey pool)
    target_id := sanitize_resource_id vm.id
    relationship_type := .f5xc_origin_to_azure_vm
    metadata := [("matched_ips", .vList (ValueList.ofList matched)),
                 ("origin_pool", .vStr pool.name),
                 ("vm_name", .vStr vm.name)] }

/-- The VM loop of `_match_origin_pool_to_vms`: emit a relationship when
the origin IP set intersects the IPs found in the VM's properties. -/
def poolVmRels (pool : F5XCResource) (origin_ips : List Value)
    (ids : List String) :
    List AzureResource → List ResourceRelationship × List (String × String)
  | [] => ([], [])
  | vm :: rest =>
    let vm_ips := extract_ip_addresses vm.properties
    let matched := origin_ips.filter fun o => vm_ips.any fun s => hEq o (.vStr s)
    let (rs, es) := poolVmRels pool origin_ips ids rest
    if matched.isEmpty then (rs, es)
    else
      (mkPoolVmRel pool vm matched :: rs,
       if ids.contains (sanitize_resource_id vm.id) then
         (sanitize_resource_id (f5xcKey pool), sanitize_resource_id vm.id) :: es
       else es)

/-- `_match_origin_pool_to_vms`. -/
def matchOriginPoolToVms (pool : F5XCResource) (ids : List String)
    (vms : List AzureResource) :
    Except PyErr (List ResourceRelationship × List (String × String)) :=
  match pyIter (pool.spec.getD "origin_servers" (.vList .nil)) with
  | .error e => .error e
  | .ok origins =>
    match originIpsStep origins [] with
    | .error e => .error e
    | .ok origin_ips => .ok (poolVmRels pool origin_ips ids vms)

/-- The relationship built for one matching (site, VNet) pair. -/
def mkSiteVnetRel (site : F5XCResource) (vnet : AzureResource) :
    ResourceRelationship :=
  { source_id := sanitize_resource_id (f5xcKey site)
    target_id := sanitize_resource_id vnet.id
    relationship_type := .f5xc_site_to_azure_vnet
    metadata := [("site_name", .vStr site.name),
                 ("vnet_name", .vStr vnet.name),
                 ("match_method", .vStr "name_similarity")] }

/-- `_match_site_to_vnets`: lower-cased name substring match either way.
(The `site.spec.get("network", {})` access of the source is discarded
there and cannot fail on the typed `spec` dict.) -/
def matchSiteToVnets (site : F5XCResource) (ids : List String) :
    List AzureResource → List ResourceRelationship × List (String × String)
  | [] => ([], [])
  | vnet :: rest =>
    let vn := strLower vnet.name
    let sn := strLower site.name
    let (rs, es) := matchSiteToVnets site ids rest
    if charsSubstr vn.data sn.data || charsSubstr sn.data vn.data then
      (mkSiteVnetRel site vnet :: rs,
       if ids.contains (sanitize_resource_id vnet.id) then
         (sanitize_resource_id (f5xcKey site), sanitize_resource_id vnet.id) :: es
       else es)
    else (rs, es)

/-- The type dispatch of `_correlate_f5xc_to_azure` for one record:
`origin_pool` records go to the VM matcher, `site` records to the VNet
matcher, anything else contributes nothing. -/
def fxDispatch (vms vnets : List AzureResource) (ids : List String)
    (r : F5XCResource) :
    Except PyErr (List ResourceRelationship × List (String × String)) :=
  if r.type == "origin_pool" then matchOriginPoolToVms r ids vms
  else if r.type == "site" then .ok (matchSiteToVnets r ids vnets)
  else .ok ([], [])

/-- The per-record dispatch loop of `_correlate_f5xc_to_azure`. -/
def fxAzStep (vms vnets : List AzureResource) (ids : List String) :
    List F5XCResource →
    Except PyErr (List ResourceRelationship × List (String × String))
  | [] => .ok ([], [])
  | r :: rest =>
    match fxDispatch vms vnets ids r with
    | .error e => .error e
    | .ok (a, b) =>
      match fxAzStep vms vnets ids rest with
      | .error e => .error e
      | .ok (c, d) => .ok (a ++ c, b ++ d)

/-- `_correlate_f5xc_to_azure`: filter the Azure VM and VNet lists, then
dispatch on the F5 XC record type. -/
def correlateF5xcToAzure (fx : List F5XCResource) (az : List AzureResource)
    (ids : List String) :
    Except PyErr (List ResourceRelationship × List (String × String)) :=
  fxAzStep (az.filter (·.type == "Microsoft.Compute/virtualMachines"))
    (az.filter (·.type == "Microsoft.Network/virtualNetworks")) ids fx

/-! ### Step 5: `_correlate_by_tags` / `_index_resources_by_tags` -/

/-- Equality of `(tag_key, tag_value)` dict-key tuples (components are
hashable whenever indexing succeeded). -/
def tagPairBeq (p q : String × Value) : Bool :=
  p.1 == q.1 && hEq p.2 q.2

/-- The tag index: `(tag_key, tag_value) → list of resource ids`. -/
abbrev Idx := List ((String × Value) × List String)

/-- `tag_index.get(pair, [])`. -/
def idxLookup : Idx → (String × Value) → List String
  | [], _ => []
  | (q, ids) :: rest, p => if tagPairBeq q p then ids else idxLookup rest p

/-- Appending a resource id under a tag pair, creating the entry on first
use (mirrors the `if tag_tuple not in tag_index` / `append` sequence). -/
def idxInsert (idx : Idx) (p : String × Value) (id : String) : Idx :=
  if idx.any (fun q => tagPairBeq q.1 p) then
    idx.map fun q => if tagPairBeq q.1 p then (q.1, q.2 ++ [id]) else q
  else idx ++ [(p, [id])]

/-- Indexing all tags of one resource; an unhashable tag value raises
`TypeError` when used as part of a dict key. -/
def idxInsertTags (id : String) : List (String × Value) → Idx → Except PyErr Idx
  | [], idx => .ok idx
  | (k, v) :: rest, idx =>
    if v.hashable then idxInsertTags id rest (idxInsert idx (k, v) id)
    else .error (.typeError "unhashable type")

/-- `_index_resources_by_tags(_, "terraform")`: tags come from
`values.get("tags", {})` whose `.items()` raises on a non-dict. -/
def indexTfStep : List TerraformResource → Idx → Except PyErr Idx
  | [], idx => .ok idx
  | r :: rest, idx =>
    match pyItems (r.values.getD "tags" (.vMap .nil)) with
    | .error e => .error e
    | .ok items =>
      match idxInsertTags (sanitize_resource_id r.address) items idx with
      | .error e => .error e
      | .ok idx2 => indexTfStep rest idx2

/-- Indexing the typed string tags of one Azure resource (cannot fail). -/
def idxInsertStrTags (id : String) : List (String × String) → Idx → Idx
  | [], idx => idx
  | (k, v) :: rest, idx => idxInsertStrTags id rest (idxInsert idx (k, .vStr v) id)

/-- `_index_resources_by_tags(_, "azure")`. -/
def indexAzStep : List AzureResource → Idx → Idx
  | [], idx => idx
  | r :: rest, idx => indexAzStep rest (idxInsertStrTags (sanitize_resource_id r.id) r.tags idx)

/-- `_index_resources_by_tags(_, "f5xc")`: labels come from
`metadata.get("labels", {})`. -/
def indexFxStep : List F5XCResource → Idx → Except PyErr Idx
  | [], idx => .ok idx
  | r :: rest, idx =>
    match pyItems (r.metadata.getD "labels" (.vMap .nil)) with
    | .error e => .error e
    | .ok items =>
      match idxInsertTags (sanitize_resource_id (f5xcKey r)) items idx with
      | .error e => .error e
      | .ok idx2 => indexFxStep rest idx2

/-- The relationship built for one tag match; the F5 XC index is looked
up by the source but its result is discarded, so only Terraform × Azure
pairs are emitted. -/
def mkTagRel (p : String × Value) (tfId azId : String) : ResourceRelationship :=
  { source_id := tfId
    target_id := azId
    relationship_type := .generic_dependency
    metadata := [("tag_key", .vStr p.1), ("tag_value", p.2)] }

/-- The emission loop of `_correlate_by_tags` over an enumeration `ord` of
the `all_tags` set: for each pair, the cross product of the Terraform and
Azure matches. -/
def tagRelsFor (tfIdx azIdx : Idx) (ord : List (String × Value)) :
    List ResourceRelationship :=
  ord.flatMap fun p =>
    (idxLookup tfIdx p).flatMap fun tfId =>
      (idxLookup azIdx p).map (mkTagRel p tfId)

/-- `_correlate_by_tags`, parametrized by the iteration order of the
`all_tags` set (Python set iteration order is not specified; the content
theorems below show the result is order-independent). -/
def correlateByTags (mt : Bool) (tf : List TerraformResource)
    (az : List AzureResource) (fx : List F5XCResource)
    (ord : List (String × Value)) : Except PyErr (List ResourceRelationship) :=
  if mt then
    match indexTfStep tf [] with
    | .error e => .error e
    | .ok tfIdx =>
      let azIdx := indexAzStep az []
      match indexFxStep fx [] with
      | .error e => .error e
      | .ok _ => .ok (tagRelsFor tfIdx azIdx ord)
  else .ok []

/-- Boolean membership of a tag pair modulo `tagPairBeq`. -/
def pairMem (p : String × Value) (l : List (String × Value)) : Bool :=
  l.any fun q => tagPairBeq q p

/-- Duplicate removal modulo `tagPairBeq` (membership-preserving). -/
def dedupPairs : List (String × Value) → List (String × Value)
  | [] => []
  | p :: rest =>
    if pairMem p (dedupPairs rest) then dedupPairs rest
    else p :: dedupPairs rest

/-- The open tag entries of a Declared record (empty when the `tags`
value is not a dict; in that case indexing fails anyway). -/
def tfTagEntries (T : TerraformResource) : List (String × Value) :=
  match T.values.getD "tags" (.vMap .nil) with
  | .vMap m => m.entries
  | _ => []

/-- The label entries of an Observed-Edge record. -/
def fxLabelEntries (r : F5XCResource) : List (String × Value) :=
  match r.metadata.getD "labels" (.vMap .nil) with
  | .vMap m => m.entries
  | _ => []

/-- The raw tag pairs of all three sources in input order. -/
def rawTagPairs (tf : List TerraformResource) (az : List AzureResource)
    (fx : List F5XCResource) : List (String × Value) :=
  tf.flatMap tfTagEntries
  ++ (az.flatMap fun a => a.tags.map fun kv => (kv.1, .vStr kv.2))
  ++ fx.flatMap fxLabelEntries

/-- A canonical enumeration of the `all_tags` set (one representative
order; the C4 theorem shows content does not depend on the order). -/
def canonicalTagOrder (tf : List TerraformResource) (az : List AzureResource)
    (fx : List F5XCResource) : List (String × Value) :=
  dedupPairs (rawTagPairs tf az fx)

/-! ### Step 6: `_correlate_by_ip` -/

/-- `_correlate_by_ip`: returns `[]` when the flag is off — and `[]`
when it is on (the IP work already happened in `_correlate_f5xc_to_azure`). -/
def correlateByIp (mi : Bool) : List ResourceRelationship :=
  if !mi then [] else []

/-! ### Step 7: `_detect_drift` -/

/-- First-match lookup in a typed string-tag dict. -/
def strAssoc : List (String × String) → String → Option String
  | [], _ => none
  | (k, v) :: rest, key => if k == key then some v else strAssoc rest key

/-- Python `==` between a dynamic tags value that is a dict and the typed
Azure tags dict: key sets coincide and values agree. -/
def dictEqStrMap (m : ValueMap) (az : List (String × String)) : Bool :=
  (m.entries.all fun kv =>
     match strAssoc az kv.1 with
     | some s => match kv.2 with | .vStr t => t == s | _ => false
     | none => false)
  && (az.all fun kv => (m.lookup kv.1).isSome)

/-- Python `tf_tags != azure_tags`: a non-dict dynamic value is never
equal to a dict. -/
def driftNe (tfTags : Value) (az : List (String × String)) : Bool :=
  match tfTags with
  | .vMap m => !dictEqStrMap m az
  | _ => true

/-- The typed Azure tags as a dynamic value (for the drift record). -/
def liftTags (az : List (String × String)) : Value :=
  .vMap (ValueMap.ofList (az.map fun kv => (kv.1, .vStr kv.2)))

/-- The per-record loop of `_detect_drift`. -/
def detectDriftStep (lookup : List (String × AzureResource)) :
    List TerraformResource → Except PyErr (List ConfigurationDrift)
  | [] => .ok []
  | r :: rest =>
    match pyLower (r.values.getD "id" (.vStr "")) with
    | .error e => .error e
    | .ok azure_id =>
      match (if azure_id == "" then none else azAssoc lookup azure_id) with
      | some a =>
        let tf_tags := r.values.getD "tags" (.vMap .nil)
        let tagDrift : List ConfigurationDrift :=
          if driftNe tf_tags a.tags then
            [{ resource_address := r.address
               drift_type := "tags"
               terraform_value := tf_tags
               azure_value := liftTags a.tags
               details := "Tag mismatch for " ++ r.name }]
          else []
        match pyLower (r.values.getD "location" (.vStr "")) with
        | .error e => .error e
        | .ok tf_location =>
          let locDrift : List ConfigurationDrift :=
            if tf_location != "" && tf_location != strLower a.location then
              [{ resource_address := r.address
                 drift_type := "location"
                 terraform_value := .vStr tf_location
                 azure_value := .vStr (strLower a.location)
                 details := "Location mismatch for " ++ r.name }]
            else []
          match detectDriftStep lookup rest with
          | .error e => .error e
          | .ok ds => .ok (tagDrift ++ locDrift ++ ds)
      | none => detectDriftStep lookup rest

/-- `_detect_drift`: rebuild the Azure lookup, then scan the Terraform
records. -/
def detectDrift (tf : List TerraformResource) (az : List AzureResource) :
    Except PyErr (List ConfigurationDrift) :=
  detectDriftStep (buildAzureLookup az) tf

/-! ### `correlate` -/

/-- The body of `correlate` (inside the `try`), parametrized by the
iteration order of the tag set. -/
def correlateWithOrder (opts : Options) (tf : List TerraformResource)
    (az : List AzureResource) (fx : List F5XCResource)
    (ord : List (String × Value)) :
    Except PyErr (CorrelatedResources × List (String × String)) :=
  match tfAzStep (buildAzureLookup az) (nodeIds tf az fx) tf with
  | .error e => .error e
  | .ok (taRels, taEdges) =>
    match correlateF5xcToAzure fx az (nodeIds tf az fx) with
    | .error e => .error e
    | .ok (faRels, faEdges) =>
      match correlateByTags opts.match_by_tags tf az fx ord with
      | .error e => .error e
      | .ok tagRels =>
        match (if opts.enable_drift_detection then detectDrift tf az
               else .ok []) with
        | .error e => .error e
        | .ok drift =>
          .ok ({ resources :=
                   tf.map DumpedResource.tf ++ az.map DumpedResource.az
                     ++ fx.map DumpedResource.fx
                 relationships :=
                   depRels tf ++ taRels ++ faRels ++ tagRels
                     ++ correlateByIp opts.match_by_ip
                 drift := drift },
               depEdges tf (nodeIds tf az fx) ++ taEdges ++ faEdges)

/-- `ResourceCorrelator.correlate` with an explicit tag iteration order:
the single top-level `except Exception` re-raises any escaping exception
as a `CorrelationError` wrapping the cause. -/
def correlateWith (opts : Options) (tf : List TerraformResource)
    (az : List AzureResource) (fx : List F5XCResource)
    (ord : List (String × Value)) :
    Except CorrelationError (CorrelatedResources × List (String × String)) :=
  match correlateWithOrder opts tf az fx ord with
  | .ok r => .ok r
  | .error e => .error ⟨e⟩

/-- `ResourceCorrelator.correlate` at the canonical tag order. -/
def correlate (opts : Options) (tf : List TerraformResource)
    (az : List AzureResource) (fx : List F5XCResource) :
    Except CorrelationError (CorrelatedResources × List (String × String)) :=
  correlateWith opts tf az fx (canonicalTagOrder tf az fx)

/-! ### Concrete fixtures used by witnesses and counterexamples -/

/-- VM properties nesting an IP the recursive scan reaches (mirrors the
fixture of `test_match_origin_pool_to_vms`). -/
def sampleVmProps : ValueMap := ValueMap.ofList
  [("networkProfile", .vMap (ValueMap.ofList
     [("networkInterfaces", .vList (ValueList.ofList
        [.vMap (ValueMap.ofList
           [("properties", .vMap (ValueMap.ofList
              [("ipConfigurations", .vList (ValueList.ofList
                 [.vMap (ValueMap.ofList
                    [("properties", .vMap (ValueMap.ofList
                       [("privateIPAddress", .vStr "10.0.1.10")]))])]))]))])]))]))]

/-- An origin pool whose only origin server carries
`private_ip.ip = "10.0.1.10"`. -/
def samplePool : F5XCResource :=
  { type := "origin_pool", ns := "production", name := "pool-web"
    spec := ValueMap.ofList
      [("origin_servers", .vList (ValueList.ofList
         [.vMap (ValueMap.ofList
            [("private_ip", .vMap (ValueMap.ofList [("ip", .vStr "10.0.1.10")]))])]))]
    metadata := .nil }

/-- An Azure VM whose properties contain `10.0.1.10` where the scan looks. -/
def sampleVm : AzureResource :=
  { id := "/subscriptions/s/resourceGroups/rg/providers/Microsoft.Compute/virtualMachines/vm-app01"
    name := "vm-app01", type := "Microsoft.Compute/virtualMachines"
    location := "eastus", resource_group := "rg", tags := [], properties := sampleVmProps }

/-- Number of relationships of a given kind in a correlation result
(0 when the run failed). -/
def countRelsOfKind
    (res : Except CorrelationError (CorrelatedResources × List (String × String)))
    (k : RelationshipType) : Nat :=
  match res with
  | .ok (r, _) => r.relationships.countP fun rel => rel.relationship_type == k
  | .error _ => 0

/-- The payload of a successful correlation run (dummy on failure). -/
def resultOf
    (res : Except CorrelationError (CorrelatedResources × List (String × String))) :
    CorrelatedResources × List (String × String) :=
  match res with
  | .ok p => p
  | .error _ => (⟨[], [], []⟩, [])

/-! ### Fixtures and predicates used by the claim theorems -/

/-- The Declared record of the C5 tag-drift scenario:
`attributes.id = X`, `attributes.tags = {"env": "dev"}`. -/
def c5Declared (ttype tname addr X : String) : TerraformResource :=
  ⟨ttype, tname, addr,
   ValueMap.ofList [("id", .vStr X),
                    ("tags", .vMap (ValueMap.ofList [("env", .vStr "dev")]))],
   []⟩

/-- The Observed-Cloud record of the C5 tag-drift scenario:
`id = X`, `tags = {"env": "prod"}`. -/
def c5Observed (X aname atype loc rg : String) : AzureResource :=
  ⟨X, aname, atype, loc, rg, [("env", "prod")], .nil⟩

/-- The single tag-mismatch drift entry of the C5 scenario. -/
def c5Drift (addr tname : String) : ConfigurationDrift :=
  { resource_address := addr
    drift_type := "tags"
    terraform_value := .vMap (ValueMap.ofList [("env", .vStr "dev")])
    azure_value := liftTags [("env", "prod")]
    details := "Tag mismatch for " ++ tname }

/-- The (source, target, kind) triple test of a declared-dependency
relationship. -/
def depTriplePred (sA sD : String) (rel : ResourceRelationship) : Bool :=
  rel.source_id == sA && rel.target_id == sD
    && rel.relationship_type == RelationshipType.terraform_dependency

/-- The dangling-dependency fixture of the C3 witness. -/
def c3Rec : TerraformResource := ⟨"t", "a", "mod.a", .nil, ["missing.dep"]⟩

/-- The (source, target, kind) triple of a relationship. -/
def relTriple (rel : ResourceRelationship) :
    String × String × RelationshipType :=
  (rel.source_id, rel.target_id, rel.relationship_type)

/-- The Declared side of the C4 witness scenario (tagged `env: prod`). -/
def c4Tf : TerraformResource :=
  ⟨"azurerm_virtual_network", "main", "vnet.main",
   ValueMap.ofList [("tags", .vMap (ValueMap.ofList [("env", .vStr "prod")]))],
   []⟩

/-- The Observed-Cloud side of the C4 witness scenario (same tag). -/
def c4Az : AzureResource :=
  ⟨"/subscriptions/s/az1", "az1", "Microsoft.Network/virtualNetworks",
   "eastus", "rg", [("env", "prod")], .nil⟩

mutual
/-- The claim's notion of "contains the string anywhere (at any nesting
depth in maps or lists)" — written from the claim's words, to be compared
with what `extract_ip_addresses` actually visits. -/
def valueContainsStr (needle : String) : Value → Bool
  | .vStr s => charsSubstr needle.data s.data
  | .vMap m => mapContainsStr needle m
  | .vList l => listContainsStr needle l
  | _ => false

def mapContainsStr (needle : String) : ValueMap → Bool
  | .nil => false
  | .cons _ v rest => valueContainsStr needle v || mapContainsStr needle rest

def listContainsStr (needle : String) : ValueList → Bool
  | .nil => false
  | .cons v rest => valueContainsStr needle v || listContainsStr needle rest
end

/-- A VM record with the given open properties payload. -/
def c6Vm (props : ValueMap) : AzureResource :=
  { id := "/subscriptions/s/resourceGroups/rg/providers/Microsoft.Compute/virtualMachines/vm-app01"
    name := "vm-app01", type := "Microsoft.Compute/virtualMachines"
    location := "eastus", resource_group := "rg", tags := [], properties := props }

/-- Properties carrying `"10.0.1.10"` only inside a list nested directly
inside another list — a spot the recursive scan never visits. -/
def c6NestedProps : ValueMap := ValueMap.ofList
  [("a", .vList (ValueList.ofList [.vList (ValueList.ofList [.vStr "10.0.1.10"])]))]

/-- Membership test for the edge-origin-to-cloud-vm kind. -/
def o2vmPred (rel : ResourceRelationship) : Bool :=
  rel.relationship_type == RelationshipType.f5xc_origin_to_azure_vm

/-- Membership test for the generic-tag-match kind. -/
def genericPred (rel : ResourceRelationship) : Bool :=
  rel.relationship_type == RelationshipType.generic_dependency

/-! ### Inversion of a successful run -/

/-- Inverting `correlateWith … = .ok (r, ed)`: every fallible step
succeeded and the components of the result are exactly the
concatenations the source builds. -/
theorem correlateWith_ok_inv {opts : Options} {tf : List TerraformResource}
    {az : List AzureResource} {fx : List F5XCResource}
    {ord : List (String × Value)} {r : CorrelatedResources}
    {ed : List (String × String)}
    (h : correlateWith opts tf az fx ord = .ok (r, ed)) :
    ∃ ta fa tg dr,
      tfAzStep (buildAzureLookup az) (nodeIds tf az fx) tf = .ok ta ∧
      correlateF5xcToAzure fx az (nodeIds tf az fx) = .ok fa ∧
      correlateByTags opts.match_by_tags tf az fx ord = .ok tg ∧
      (if opts.enable_drift_detection then detectDrift tf az else .ok []) = .ok dr ∧
      r.resources = tf.map DumpedResource.tf ++ az.map DumpedResource.az
        ++ fx.map DumpedResource.fx ∧
      r.relationships = depRels tf ++ ta.1 ++ fa.1 ++ tg
        ++ correlateByIp opts.match_by_ip ∧
      r.drift = dr ∧
      ed = depEdges tf (nodeIds tf az fx) ++ ta.2 ++ fa.2 := by
  unfold correlateWith correlateWithOrder at h
  cases h1 : tfAzStep (buildAzureLookup az) (nodeIds tf az fx) tf with
  | error e => rw [h1] at h; cases h
  | ok ta =>
    rw [h1] at h
    cases h2 : correlateF5xcToAzure fx az (nodeIds tf az fx) with
    | error e => rw [h2] at h; cases h
    | ok fa =>
      rw [h2] at h
      cases h3 : correlateByTags opts.match_by_tags tf az fx ord with
      | error e => rw [h3] at h; cases h
      | ok tg =>
        rw [h3] at h
        cases h4 : (if opts.enable_drift_detection then detectDrift tf az
            else .ok []) with
        | error e => rw [h4] at h; cases h
        | ok dr =>
          rw [h4] at h
          refine ⟨ta, fa, tg, dr, rfl, rfl, rfl, rfl, ?_⟩
          obtain ⟨ta1, ta2⟩ := ta
          obtain ⟨fa1, fa2⟩ := fa
          cases h
          exact ⟨rfl, rfl, rfl, rfl⟩

/-! ### Claim theorems -/

/-- C1 counterexample: with `matchByIp = false` (and the origin pool /
VM pair of the repository's own test fixture) `correlate` still emits an
edge-origin-to-cloud-vm (`f5xc_origin_to_azure_vm`) relationship, so the
claim "matchByIp=false ⇒ zero relationships of that kind" is false. -/
theorem c1_counterexample :
    countRelsOfKind (correlate ⟨true, false, true⟩ [] [sampleVm] [samplePool])
      .f5xc_origin_to_azure_vm = 1 := rfl

/-- C1 (amended): the `matchByIp` option has no effect at all on the
result of `correlate`: the separate `_correlate_by_ip` pass contributes
no relationships whether the flag is on or off, and the IP-based
origin-pool matching of step 4 runs unconditionally. -/
theorem c1_matchByIp_no_effect (mt dd : Bool) (tf : List TerraformResource)
    (az : List AzureResource) (fx : List F5XCResource) :
    correlate ⟨mt, true, dd⟩ tf az fx = correlate ⟨mt, false, dd⟩ tf az fx := by
  simp [correlate, correlateWith, correlateWithOrder, correlateByIp]

/-- C2 (code bug): a single record whose `values["id"]` is `None` (the
exact fixture of the repository's `test_correlation_error_handling`)
makes `correlate` abort the whole run with a `CorrelationError` wrapping
the `AttributeError` from `None.lower()` — there is no per-record
skip-and-warn handling anywhere in `correlate`. -/
theorem c2_whole_run_aborts_on_single_bad_record :
    correlate ⟨true, true, true⟩
      [⟨"test", "bad", "test.bad", ValueMap.ofList [("id", .vNone)], []⟩] [] []
      = .error ⟨.attributeError "lower"⟩ := rfl

/-- C9: `correlate` either succeeds, or fails with exactly the typed
`CorrelationError` wrapping the cause raised inside the body — no other
error shape escapes the top-level handler. -/
theorem c9_single_wrapped_error (opts : Options) (tf : List TerraformResource)
    (az : List AzureResource) (fx : List F5XCResource) :
    (∃ res, correlate opts tf az fx = .ok res) ∨
    (∃ cause,
      correlateWithOrder opts tf az fx (canonicalTagOrder tf az fx) = .error cause ∧
      correlate opts tf az fx = .error ⟨cause⟩) := by
  cases h : correlateWithOrder opts tf az fx (canonicalTagOrder tf az fx) with
  | ok p => exact .inl ⟨p, by simp [correlate, correlateWith, h]⟩
  | error e => exact .inr ⟨e, rfl, by simp [correlate, correlateWith, h]⟩

/-- C10: key sanitization is not injective — `"a.b"` and `"a/b"` collide
on `"a_b"` — and adding two records with those distinct correlation keys
produces a single graph node holding the later record. -/
theorem c10_sanitize_not_injective :
    sanitize_resource_id "a.b" = sanitize_resource_id "a/b"
    ∧ "a.b" ≠ "a/b"
    ∧ buildNodes [⟨"t", "n1", "a.b", .nil, []⟩, ⟨"t", "n2", "a/b", .nil, []⟩] [] []
        = [("a_b", .tf ⟨"t", "n2", "a/b", .nil, []⟩)] :=
  ⟨rfl, by decide, rfl⟩

/-- Lowering a nonempty string yields a nonempty string. -/
theorem strLower_ne_empty {s : String} (h : s ≠ "") : strLower s ≠ "" := by
  obtain ⟨l⟩ := s
  intro hc
  apply h
  have hd : l.map Char.toLower = [] := congrArg String.data hc
  have hl : l = [] := by simpa using hd
  subst hl
  rfl

theorem strLower_empty : strLower "" = "" := rfl

/-- A run with drift detection disabled reports no drift. -/
theorem drift_flag_false {mt mi : Bool} {tf : List TerraformResource}
    {az : List AzureResource} {fx : List F5XCResource}
    {ord : List (String × Value)} {r : CorrelatedResources}
    {ed : List (String × String)}
    (h : correlateWith ⟨mt, mi, false⟩ tf az fx ord = .ok (r, ed)) :
    r.drift = [] := by
  obtain ⟨ta, fa, tg, dr, _, _, _, h4, _, _, hdr, _⟩ := correlateWith_ok_inv h
  simp only [] at h4
  rw [hdr]
  simpa using h4.symm

/-- C8: a successful `correlate` returns a resources list of length
exactly `len(declared) + len(observedCloud) + len(observedEdge)` — every
input record is dumped into the output, none dropped or added. -/
theorem c8_resources_length (opts : Options) (tf : List TerraformResource)
    (az : List AzureResource) (fx : List F5XCResource)
    (r : CorrelatedResources) (ed : List (String × String))
    (h : correlate opts tf az fx = .ok (r, ed)) :
    r.resources.length = tf.length + az.length + fx.length := by
  obtain ⟨ta, fa, tg, dr, _, _, _, _, hres, _, _, _⟩ := correlateWith_ok_inv h
  simp [hres, Nat.add_assoc]

/-- C8 witness: a concrete successful run with 1 + 1 + 1 input records
has a resources list of length 3. -/
theorem c8_resources_length_witness :
    correlate ⟨true, true, true⟩
        [⟨"t", "a", "mod.a", .nil, []⟩] [sampleVm] [samplePool]
      = .ok (resultOf (correlate ⟨true, true, true⟩
        [⟨"t", "a", "mod.a", .nil, []⟩] [sampleVm] [samplePool]))
    ∧ (resultOf (correlate ⟨true, true, true⟩
        [⟨"t", "a", "mod.a", .nil, []⟩] [sampleVm] [samplePool])).1.resources.length
      = 3 :=
  ⟨rfl,
   c8_resources_length ⟨true, true, true⟩
     [⟨"t", "a", "mod.a", .nil, []⟩] [sampleVm] [samplePool] _ _ rfl⟩

/-- `_detect_drift` on the C5 scenario produces exactly the one
tag-mismatch entry (and no location entry, since no location is declared). -/
theorem detectDrift_c5 (X addr tname ttype aname atype loc rg : String)
    (hX : X ≠ "") :
    detectDrift [c5Declared ttype tname addr X] [c5Observed X aname atype loc rg]
      = .ok [c5Drift addr tname] := by
  have hne : (strLower X == "") = false := by
    simp only [beq_eq_false_iff_ne]
    exact strLower_ne_empty hX
  simp [detectDrift, detectDriftStep, buildAzureLookup, insertOverwrite,
        c5Declared, c5Observed, c5Drift, ValueMap.getD, ValueMap.lookup,
        ValueMap.ofList, pyLower, azAssoc, hne, driftNe, dictEqStrMap,
        strAssoc, ValueMap.entries, liftTags, strLower_empty]

/-! ### Which step emits which relationship kind -/

theorem depRels_kind {tf : List TerraformResource} {rel : ResourceRelationship}
    (h : rel ∈ depRels tf) : rel.relationship_type = .terraform_dependency := by
  simp only [depRels, List.mem_flatMap, List.mem_map] at h
  obtain ⟨r, _, dep, _, hrel⟩ := h
  rw [← hrel]
  rfl

theorem tfAzStep_rel_kind {lookup : List (String × AzureResource)}
    {ids : List String} {tf : List TerraformResource}
    {rs : List ResourceRelationship} {es : List (String × String)}
    {rel : ResourceRelationship}
    (h : tfAzStep lookup ids tf = .ok (rs, es)) (hm : rel ∈ rs) :
    rel.relationship_type = .terraform_azure := by
  induction tf generalizing rs es with
  | nil =>
    simp only [tfAzStep, Except.ok.injEq, Prod.mk.injEq] at h
    rw [← h.1] at hm
    cases hm
  | cons r rest ih =>
    simp only [tfAzStep] at h
    cases hp : pyLower (r.values.getD "id" (.vStr "")) with
    | error e => simp [hp] at h
    | ok azure_id =>
      simp only [hp] at h
      cases hr : tfAzStep lookup ids rest with
      | error e => simp [hr] at h
      | ok p =>
        obtain ⟨rs0, es0⟩ := p
        simp only [hr] at h
        cases ha : (if azure_id == "" then none else azAssoc lookup azure_id) with
        | none =>
          simp only [ha, Except.ok.injEq, Prod.mk.injEq] at h
          rw [← h.1] at hm
          exact ih hr hm
        | some a =>
          simp only [ha, Except.ok.injEq, Prod.mk.injEq] at h
          rw [← h.1] at hm
          rcases List.mem_cons.mp hm with hm | hm
          · rw [hm]; rfl
          · exact ih hr hm

theorem poolVmRels_kind {pool : F5XCResource} {ips : List Value}
    {ids : List String} {vms : List AzureResource} {rel : ResourceRelationship}
    (hm : rel ∈ (poolVmRels pool ips ids vms).1) :
    rel.relationship_type = .f5xc_origin_to_azure_vm := by
  induction vms with
  | nil => cases hm
  | cons vm rest ih =>
    simp only [poolVmRels] at hm
    split at hm
    · exact ih hm
    · rcases List.mem_cons.mp hm with hm | hm
      · rw [hm]; rfl
      · exact ih hm

theorem matchSiteToVnets_kind {site : F5XCResource} {ids : List String}
    {vnets : List AzureResource} {rel : ResourceRelationship}
    (hm : rel ∈ (matchSiteToVnets site ids vnets).1) :
    rel.relationship_type = .f5xc_site_to_azure_vnet := by
  induction vnets with
  | nil => cases hm
  | cons vnet rest ih =>
    simp only [matchSiteToVnets] at hm
    split at hm
    · rcases List.mem_cons.mp hm with hm | hm
      · rw [hm]; rfl
      · exact ih hm
    · exact ih hm

theorem matchOriginPoolToVms_kind {pool : F5XCResource} {ids : List String}
    {vms : List AzureResource} {rs : List ResourceRelationship}
    {es : List (String × String)} {rel : ResourceRelationship}
    (h : matchOriginPoolToVms pool ids vms = .ok (rs, es)) (hm : rel ∈ rs) :
    rel.relationship_type = .f5xc_origin_to_azure_vm := by
  unfold matchOriginPoolToVms at h
  cases h1 : pyIter (pool.spec.getD "origin_servers" (.vList .nil)) with
  | error e => simp [h1] at h
  | ok origins =>
    simp only [h1] at h
    cases h2 : originIpsStep origins [] with
    | error e => simp [h2] at h
    | ok ips =>
      simp only [h2, Except.ok.injEq] at h
      have hrs : rs = (poolVmRels pool ips ids vms).1 := by rw [h]
      rw [hrs] at hm
      exact poolVmRels_kind hm

theorem fxAzStep_rel_kind {vms vnets : List AzureResource} {ids : List String}
    {fx : List F5XCResource} {rs : List ResourceRelationship}
    {es : List (String × String)} {rel : ResourceRelationship}
    (h : fxAzStep vms vnets ids fx = .ok (rs, es)) (hm : rel ∈ rs) :
    rel.relationship_type = .f5xc_origin_to_azure_vm
    ∨ rel.relationship_type = .f5xc_site_to_azure_vnet := by
  induction fx generalizing rs es with
  | nil =>
    simp only [fxAzStep, Except.ok.injEq, Prod.mk.injEq] at h
    rw [← h.1] at hm
    cases hm
  | cons r rest ih =>
    simp only [fxAzStep] at h
    cases hc : fxDispatch vms vnets ids r with
    | error e => simp [hc] at h
    | ok p =>
      obtain ⟨a, b⟩ := p
      simp only [hc] at h
      cases hr : fxAzStep vms vnets ids rest with
      | error e => simp [hr] at h
      | ok q =>
        obtain ⟨c, d⟩ := q
        simp only [hr, Except.ok.injEq, Prod.mk.injEq] at h
        rw [← h.1] at hm
        rcases List.mem_append.mp hm with hm | hm
        · unfold fxDispatch at hc
          split at hc
          · exact .inl (matchOriginPoolToVms_kind hc hm)
          · split at hc
            · simp only [Except.ok.injEq] at hc
              have ha : a = (matchSiteToVnets r ids vnets).1 := by rw [hc]
              rw [ha] at hm
              exact .inr (matchSiteToVnets_kind hm)
            · simp only [Except.ok.injEq, Prod.mk.injEq] at hc
              rw [← hc.1] at hm
              cases hm
        · exact ih hr hm

theorem tagRelsFor_kind {tfIdx azIdx : Idx} {ord : List (String × Value)}
    {rel : ResourceRelationship} (h : rel ∈ tagRelsFor tfIdx azIdx ord) :
    rel.relationship_type = .generic_dependency := by
  simp only [tagRelsFor, List.mem_flatMap, List.mem_map] at h
  obtain ⟨p, _, tfId, _, azId, _, hrel⟩ := h
  rw [← hrel]
  rfl

theorem correlateByTags_rel_kind {mt : Bool} {tf : List TerraformResource}
    {az : List AzureResource} {fx : List F5XCResource}
    {ord : List (String × Value)} {tg : List ResourceRelationship}
    {rel : ResourceRelationship}
    (h : correlateByTags mt tf az fx ord = .ok tg) (hm : rel ∈ tg) :
    rel.relationship_type = .generic_dependency := by
  unfold correlateByTags at h
  split at h
  · cases h1 : indexTfStep tf [] with
    | error e => rw [h1] at h; cases h
    | ok tfIdx =>
      rw [h1] at h
      cases h2 : indexFxStep fx [] with
      | error e => rw [h2] at h; cases h
      | ok fxIdx =>
        rw [h2] at h
        simp only [Except.ok.injEq] at h
        rw [← h] at hm
        exact tagRelsFor_kind hm
  · simp only [Except.ok.injEq] at h
    rw [← h] at hm
    cases hm

theorem correlateByIp_eq_nil (mi : Bool) : correlateByIp mi = [] := by
  cases mi <;> rfl

/-! ### Every graph edge targets an existing node -/

theorem depEdges_target {tf : List TerraformResource} {ids : List String}
    {e : String × String} (h : e ∈ depEdges tf ids) : e.2 ∈ ids := by
  simp only [depEdges, List.mem_flatMap, List.mem_filterMap] at h
  obtain ⟨r, _, dep, _, hdep⟩ := h
  by_cases hc : ids.contains (sanitize_resource_id dep)
  · rw [if_pos hc] at hdep
    cases hdep
    exact List.mem_of_elem_eq_true hc
  · rw [if_neg hc] at hdep
    cases hdep

theorem tfAzStep_edge_target {lookup : List (String × AzureResource)}
    {ids : List String} {tf : List TerraformResource}
    {rs : List ResourceRelationship} {es : List (String × String)}
    {e : String × String}
    (h : tfAzStep lookup ids tf = .ok (rs, es)) (he : e ∈ es) : e.2 ∈ ids := by
  induction tf generalizing rs es with
  | nil =>
    simp only [tfAzStep, Except.ok.injEq, Prod.mk.injEq] at h
    rw [← h.2] at he
    cases he
  | cons r rest ih =>
    simp only [tfAzStep] at h
    cases hp : pyLower (r.values.getD "id" (.vStr "")) with
    | error er => simp [hp] at h
    | ok azure_id =>
      simp only [hp] at h
      cases hr : tfAzStep lookup ids rest with
      | error er => simp [hr] at h
      | ok p =>
        obtain ⟨rs0, es0⟩ := p
        simp only [hr] at h
        cases ha : (if azure_id == "" then none else azAssoc lookup azure_id) with
        | none =>
          simp only [ha, Except.ok.injEq, Prod.mk.injEq] at h
          rw [← h.2] at he
          exact ih hr he
        | some a =>
          simp only [ha, Except.ok.injEq, Prod.mk.injEq] at h
          rw [← h.2] at he
          by_cases hc : ids.contains (sanitize_resource_id a.id)
          · rw [if_pos hc] at he
            rcases List.mem_cons.mp he with he | he
            · rw [he]
              exact List.mem_of_elem_eq_true hc
            · exact ih hr he
          · rw [if_neg hc] at he
            exact ih hr he

theorem poolVmRels_edge_target {pool : F5XCResource} {ips : List Value}
    {ids : List String} {vms : List AzureResource} {e : String × String}
    (he : e ∈ (poolVmRels pool ips ids vms).2) : e.2 ∈ ids := by
  induction vms with
  | nil => cases he
  | cons vm rest ih =>
    simp only [poolVmRels] at he
    split at he
    · exact ih he
    · by_cases hc : ids.contains (sanitize_resource_id vm.id)
      · rw [if_pos hc] at he
        rcases List.mem_cons.mp he with he | he
        · rw [he]
          exact List.mem_of_elem_eq_true hc
        · exact ih he
      · rw [if_neg hc] at he
        exact ih he

theorem matchSiteToVnets_edge_target {site : F5XCResource} {ids : List String}
    {vnets : List AzureResource} {e : String × String}
    (he : e ∈ (matchSiteToVnets site ids vnets).2) : e.2 ∈ ids := by
  induction vnets with
  | nil => cases he
  | cons vnet rest ih =>
    simp only [matchSiteToVnets] at he
    split at he
    · by_cases hc : ids.contains (sanitize_resource_id vnet.id)
      · rw [if_pos hc] at he
        rcases List.mem_cons.mp he with he | he
        · rw [he]
          exact List.mem_of_elem_eq_true hc
        · exact ih he
      · rw [if_neg hc] at he
        exact ih he
    · exact ih he

theorem fxDispatch_edge_target {vms vnets : List AzureResource}
    {ids : List String} {r : F5XCResource}
    {rs : List ResourceRelationship} {es : List (String × String)}
    {e : String × String}
    (h : fxDispatch vms vnets ids r = .ok (rs, es)) (he : e ∈ es) : e.2 ∈ ids := by
  unfold fxDispatch at h
  split at h
  · unfold matchOriginPoolToVms at h
    cases h1 : pyIter (r.spec.getD "origin_servers" (.vList .nil)) with
    | error er => simp [h1] at h
    | ok origins =>
      simp only [h1] at h
      cases h2 : originIpsStep origins [] with
      | error er => simp [h2] at h
      | ok ips =>
        simp only [h2, Except.ok.injEq] at h
        have hes : es = (poolVmRels r ips ids vms).2 := by rw [h]
        rw [hes] at he
        exact poolVmRels_edge_target he
  · split at h
    · simp only [Except.ok.injEq] at h
      have hes : es = (matchSiteToVnets r ids vnets).2 := by rw [h]
      rw [hes] at he
      exact matchSiteToVnets_edge_target he
    · simp only [Except.ok.injEq, Prod.mk.injEq] at h
      rw [← h.2] at he
      cases he

theorem fxAzStep_edge_target {vms vnets : List AzureResource}
    {ids : List String} {fx : List F5XCResource}
    {rs : List ResourceRelationship} {es : List (String × String)}
    {e : String × String}
    (h : fxAzStep vms vnets ids fx = .ok (rs, es)) (he : e ∈ es) : e.2 ∈ ids := by
  induction fx generalizing rs es with
  | nil =>
    simp only [fxAzStep, Except.ok.injEq, Prod.mk.injEq] at h
    rw [← h.2] at he
    cases he
  | cons r rest ih =>
    simp only [fxAzStep] at h
    cases hc : fxDispatch vms vnets ids r with
    | error er => simp [hc] at h
    | ok p =>
      obtain ⟨a, b⟩ := p
      simp only [hc] at h
      cases hr : fxAzStep vms vnets ids rest with
      | error er => simp [hr] at h
      | ok q =>
        obtain ⟨c, d⟩ := q
        simp only [hr, Except.ok.injEq, Prod.mk.injEq] at h
        rw [← h.2] at he
        rcases List.mem_append.mp he with he | he
        · exact fxDispatch_edge_target hc he
        · exact ih hr he

/-- Every edge recorded in the live graph by a successful run targets an
existing node id. -/
theorem correlateWith_edge_target {opts : Options} {tf : List TerraformResource}
    {az : List AzureResource} {fx : List F5XCResource}
    {ord : List (String × Value)} {r : CorrelatedResources}
    {ed : List (String × String)} {e : String × String}
    (h : correlateWith opts tf az fx ord = .ok (r, ed)) (he : e ∈ ed) :
    e.2 ∈ nodeIds tf az fx := by
  obtain ⟨ta, fa, tg, dr, hta, hfa, _, _, _, _, _, hed⟩ := correlateWith_ok_inv h
  rw [hed] at he
  rcases List.mem_append.mp he with he | he
  · rcases List.mem_append.mp he with he | he
    · exact depEdges_target he
    · obtain ⟨ta1, ta2⟩ := ta
      exact tfAzStep_edge_target hta he
  · obtain ⟨fa1, fa2⟩ := fa
    exact fxAzStep_edge_target hfa he

/-! ### C3: declared-dependency relationships -/

theorem countP_depPred_zero_of_kind {sA sD : String}
    {l : List ResourceRelationship}
    (hk : ∀ rel ∈ l, rel.relationship_type ≠ RelationshipType.terraform_dependency) :
    l.countP (depTriplePred sA sD) = 0 := by
  refine List.countP_eq_zero.mpr fun rel hrel hp => ?_
  simp only [depTriplePred, Bool.and_eq_true, beq_iff_eq] at hp
  exact hk rel hrel hp.2

theorem countP_depPred_head_ne {t : TerraformResource} {sA sD : String}
    (hne : sanitize_resource_id t.address ≠ sA) :
    (t.depends_on.map (mkDepRel t)).countP (depTriplePred sA sD) = 0 := by
  refine List.countP_eq_zero.mpr fun rel hrel hp => ?_
  simp only [List.mem_map] at hrel
  obtain ⟨dep, _, hd⟩ := hrel
  rw [← hd] at hp
  simp only [depTriplePred, mkDepRel, Bool.and_eq_true, beq_iff_eq] at hp
  exact hne hp.1.1

theorem countP_depPred_head_eq (t : TerraformResource) (sD : String) :
    (t.depends_on.map (mkDepRel t)).countP
        (depTriplePred (sanitize_resource_id t.address) sD)
      = (t.depends_on.map sanitize_resource_id).count sD := by
  rw [List.countP_map, List.count, List.countP_map]
  refine List.countP_congr fun dep _ => ?_
  simp [depTriplePred, mkDepRel]

theorem countP_depRels {tf : List TerraformResource} {A : TerraformResource}
    {D : String} (hA : A ∈ tf)
    (h1 : (tf.map fun t => sanitize_resource_id t.address).count
            (sanitize_resource_id A.address) = 1)
    (h2 : (A.depends_on.map sanitize_resource_id).count
            (sanitize_resource_id D) = 1) :
    (depRels tf).countP
        (depTriplePred (sanitize_resource_id A.address) (sanitize_resource_id D))
      = 1 := by
  induction tf with
  | nil => cases hA
  | cons t rest ih =>
    have hsplit : depRels (t :: rest)
        = t.depends_on.map (mkDepRel t) ++ depRels rest := rfl
    rw [hsplit, List.countP_append]
    rw [List.map_cons, List.count_cons] at h1
    by_cases ht : sanitize_resource_id t.address = sanitize_resource_id A.address
    · rw [if_pos (by simp [ht])] at h1
      have hrest0 : (rest.map fun t => sanitize_resource_id t.address).count
          (sanitize_resource_id A.address) = 0 := by omega
      have hAt : A = t := by
        rcases List.mem_cons.mp hA with hh | hh
        · exact hh
        · exact absurd (List.count_eq_zero.mp hrest0)
            (by simp [List.mem_map]; exact ⟨A, hh, rfl⟩)
      have hdep0 : (depRels rest).countP
          (depTriplePred (sanitize_resource_id A.address)
            (sanitize_resource_id D)) = 0 := by
        refine List.countP_eq_zero.mpr fun rel hrel hp => ?_
        simp only [depRels, List.mem_flatMap, List.mem_map] at hrel
        obtain ⟨t', ht', dep, _, hd⟩ := hrel
        rw [← hd] at hp
        simp only [depTriplePred, mkDepRel, Bool.and_eq_true, beq_iff_eq] at hp
        exact (List.count_eq_zero.mp hrest0)
          (by simp [List.mem_map]; exact ⟨t', ht', hp.1.1⟩)
      rw [hdep0, ← ht, countP_depPred_head_eq]
      rw [hAt] at h2
      omega
    · rw [if_neg (by simp [ht])] at h1
      have hA' : A ∈ rest := by
        rcases List.mem_cons.mp hA with hh | hh
        · exact absurd (hh ▸ rfl) ht
        · exact hh
      rw [countP_depPred_head_ne ht, ih hA' (by omega)]

/-- C3: for a Declared record `A` (unique sanitized address in the run)
and an entry `D` of its `declaredDependencies` (unique sanitized target
among `A`'s entries), a successful run's relationship list contains
exactly one declared-dependency triple from `A`'s sanitized address to
`D`'s sanitized address — whether or not `D` names an existing record —
and when `D` is not a node, no edge of the traversable graph targets it. -/
theorem c3_declared_dependency (opts : Options) (tf : List TerraformResource)
    (az : List AzureResource) (fx : List F5XCResource)
    (r : CorrelatedResources) (ed : List (String × String))
    (A : TerraformResource) (D : String)
    (h : correlate opts tf az fx = .ok (r, ed))
    (hA : A ∈ tf) (hD : D ∈ A.depends_on)
    (h1 : (tf.map fun t => sanitize_resource_id t.address).count
            (sanitize_resource_id A.address) = 1)
    (h2 : (A.depends_on.map sanitize_resource_id).count
            (sanitize_resource_id D) = 1) :
    r.relationships.countP
        (depTriplePred (sanitize_resource_id A.address) (sanitize_resource_id D))
      = 1
    ∧ (sanitize_resource_id D ∉ nodeIds tf az fx →
        ∀ e ∈ ed, e.2 ≠ sanitize_resource_id D) := by
  obtain ⟨ta, fa, tg, dr, hta, hfa, htg, _, _, hrels, _, _⟩ :=
    correlateWith_ok_inv h
  obtain ⟨ta1, ta2⟩ := ta
  obtain ⟨fa1, fa2⟩ := fa
  constructor
  · rw [hrels]
    rw [List.countP_append, List.countP_append, List.countP_append,
      List.countP_append]
    have z1 : ta1.countP
        (depTriplePred (sanitize_resource_id A.address)
          (sanitize_resource_id D)) = 0 :=
      countP_depPred_zero_of_kind fun rel hrel => by
        rw [tfAzStep_rel_kind hta hrel]; simp
    have z2 : fa1.countP
        (depTriplePred (sanitize_resource_id A.address)
          (sanitize_resource_id D)) = 0 :=
      countP_depPred_zero_of_kind fun rel hrel => by
        rcases fxAzStep_rel_kind hfa hrel with hk | hk <;> rw [hk] <;> simp
    have z3 : tg.countP
        (depTriplePred (sanitize_resource_id A.address)
          (sanitize_resource_id D)) = 0 :=
      countP_depPred_zero_of_kind fun rel hrel => by
        rw [correlateByTags_rel_kind htg hrel]; simp
    have z4 : (correlateByIp opts.match_by_ip).countP
        (depTriplePred (sanitize_resource_id A.address)
          (sanitize_resource_id D)) = 0 := by
      rw [correlateByIp_eq_nil]; rfl
    rw [z1, z2, z3, z4, countP_depRels hA h1 h2]
  · intro hni e he heq
    exact hni (heq ▸ correlateWith_edge_target h he)

/-- C3 witness: a concrete run with one record depending on a missing
address succeeds and contains exactly one declared-dependency triple. -/
theorem c3_declared_dependency_witness :
    "missing.dep" ∈ c3Rec.depends_on
    ∧ (resultOf (correlate ⟨true, true, true⟩ [c3Rec] [] [])).1.relationships.countP
        (depTriplePred (sanitize_resource_id "mod.a")
          (sanitize_resource_id "missing.dep")) = 1 :=
  ⟨by simp [c3Rec],
   (c3_declared_dependency ⟨true, true, true⟩ [c3Rec] [] [] _ _ c3Rec
     "missing.dep" rfl (by simp) (by simp [c3Rec]) (by decide) (by decide)).1⟩

/-! ### C4: content does not depend on the tag-set iteration order -/

theorem correlateByTags_perm {mt : Bool} {tf : List TerraformResource}
    {az : List AzureResource} {fx : List F5XCResource}
    {ord1 ord2 : List (String × Value)} {tg1 tg2 : List ResourceRelationship}
    (hp : ord1.Perm ord2)
    (h1 : correlateByTags mt tf az fx ord1 = .ok tg1)
    (h2 : correlateByTags mt tf az fx ord2 = .ok tg2) : tg1.Perm tg2 := by
  unfold correlateByTags at h1 h2
  cases mt with
  | false =>
    simp only [Bool.false_eq_true, if_false, Except.ok.injEq] at h1 h2
    rw [← h1, ← h2]
  | true =>
    simp only [if_true] at h1 h2
    cases hti : indexTfStep tf [] with
    | error e => simp [hti] at h1
    | ok tfIdx =>
      simp only [hti] at h1 h2
      cases hfi : indexFxStep fx [] with
      | error e => simp [hfi] at h1
      | ok fxIdx =>
        simp only [hfi, Except.ok.injEq] at h1 h2
        rw [← h1, ← h2]
        exact hp.flatMap_right _

/-- C4: two successful runs with identical inputs and options (differing
only in the unspecified iteration order of the `all_tags` set) produce
permutations of each other's (source, target, kind) triples and the same
drift list — the output content is deterministic. -/
theorem c4_content_deterministic (opts : Options) (tf : List TerraformResource)
    (az : List AzureResource) (fx : List F5XCResource)
    (ord1 ord2 : List (String × Value)) (r1 r2 : CorrelatedResources)
    (ed1 ed2 : List (String × String))
    (hp : ord1.Perm ord2)
    (h1 : correlateWith opts tf az fx ord1 = .ok (r1, ed1))
    (h2 : correlateWith opts tf az fx ord2 = .ok (r2, ed2)) :
    (r1.relationships.map relTriple).Perm (r2.relationships.map relTriple)
    ∧ r1.drift = r2.drift
    ∧ r1.resources = r2.resources := by
  obtain ⟨ta, fa, tg1, dr1, hta, hfa, htg1, hdr1, hres1, hrels1, hd1, _⟩ :=
    correlateWith_ok_inv h1
  obtain ⟨ta', fa', tg2, dr2, hta', hfa', htg2, hdr2, hres2, hrels2, hd2, _⟩ :=
    correlateWith_ok_inv h2
  have eta : ta' = ta := by
    have := hta.symm.trans hta'
    exact (Except.ok.inj this).symm
  have efa : fa' = fa := by
    have := hfa.symm.trans hfa'
    exact (Except.ok.inj this).symm
  have edr : dr2 = dr1 := by
    have := hdr1.symm.trans hdr2
    exact (Except.ok.inj this).symm
  refine ⟨?_, ?_, ?_⟩
  · rw [hrels1, hrels2, eta, efa]
    refine List.Perm.map _ ?_
    exact ((List.Perm.refl _).append
      (correlateByTags_perm hp htg1 htg2)).append (List.Perm.refl _)
  · rw [hd1, hd2, edr]
  · rw [hres1, hres2]

/-- C4 witness: two concrete runs over swapped tag orders. -/
theorem c4_content_deterministic_witness :
    ([(("env" : String), Value.vStr "prod"), ("zz", Value.vStr "q")].Perm
      [("zz", Value.vStr "q"), ("env", Value.vStr "prod")])
    ∧ (resultOf (correlateWith ⟨true, true, true⟩ [c4Tf] [c4Az] []
          [("env", Value.vStr "prod"), ("zz", Value.vStr "q")])).1.drift
      = (resultOf (correlateWith ⟨true, true, true⟩ [c4Tf] [c4Az] []
          [("zz", Value.vStr "q"), ("env", Value.vStr "prod")])).1.drift :=
  ⟨List.Perm.swap _ _ _,
   (c4_content_deterministic ⟨true, true, true⟩ [c4Tf] [c4Az] []
     [("env", Value.vStr "prod"), ("zz", Value.vStr "q")]
     [("zz", Value.vStr "q"), ("env", Value.vStr "prod")]
     _ _ _ _ (List.Perm.swap _ _ _) rfl rfl).2.1⟩

/-! ### C6: IP matching between origin pools and VMs -/


/-- C6 counterexample: the VM's properties contain `"10.0.1.10"` (inside
a list nested in a list), the origin pool declares the same IP, yet the
run emits zero edge-origin-to-cloud-vm relationships — `_search_dict`
ignores list items that are themselves lists. -/
theorem c6_counterexample :
    mapContainsStr "10.0.1.10" c6NestedProps = true
    ∧ countRelsOfKind
        (correlate ⟨true, true, true⟩ [] [c6Vm c6NestedProps] [samplePool])
        .f5xc_origin_to_azure_vm = 0 :=
  ⟨rfl, rfl⟩

theorem poolVmRels_c6_pos {props : ValueMap} {ids : List String}
    (hin : "10.0.1.10" ∈ extract_ip_addresses props) :
    (poolVmRels samplePool [.vStr "10.0.1.10"] ids [c6Vm props]).1
      = [mkPoolVmRel samplePool (c6Vm props) [.vStr "10.0.1.10"]] := by
  have hany : (extract_ip_addresses props).any
      (fun s => hEq (.vStr "10.0.1.10") (.vStr s)) = true :=
    List.any_eq_true.mpr ⟨"10.0.1.10", hin, by simp [hEq]⟩
  simp [poolVmRels, c6Vm, hany]

theorem poolVmRels_c6_neg {props : ValueMap} {ids : List String}
    (hnin : "10.0.1.10" ∉ extract_ip_addresses props) :
    (poolVmRels samplePool [.vStr "10.0.1.10"] ids [c6Vm props]).1 = [] := by
  have hany : (extract_ip_addresses props).any
      (fun s => hEq (.vStr "10.0.1.10") (.vStr s)) = false := by
    rw [Bool.eq_false_iff]
    intro hc
    obtain ⟨s, hs, hbeq⟩ := List.any_eq_true.mp hc
    simp only [hEq, beq_iff_eq] at hbeq
    exact hnin (hbeq ▸ hs)
  simp [poolVmRels, c6Vm, hany]

theorem correlateF5xc_c6 (props : ValueMap) (ids : List String) :
    correlateF5xcToAzure [samplePool] [c6Vm props] ids
      = .ok ((poolVmRels samplePool [.vStr "10.0.1.10"] ids [c6Vm props]).1,
             (poolVmRels samplePool [.vStr "10.0.1.10"] ids [c6Vm props]).2) := by
  have step : correlateF5xcToAzure [samplePool] [c6Vm props] ids
      = .ok ((poolVmRels samplePool [.vStr "10.0.1.10"] ids [c6Vm props]).1 ++ [],
             (poolVmRels samplePool [.vStr "10.0.1.10"] ids [c6Vm props]).2 ++ []) := rfl
  rw [step, List.append_nil, List.append_nil]

/-- C6 (amended): with an origin pool declaring `private_ip.ip =
"10.0.1.10"`, a VM whose properties yield `"10.0.1.10"` under the
recursive scan — which visits map values recursively and, inside lists,
only map and string items, never lists nested in lists nor map keys —
gets exactly one edge-origin-to-cloud-vm relationship, carrying
`"10.0.1.10"` in its `matched_ips` metadata; a VM whose scan yields no
overlapping IP gets none. -/
theorem c6_ip_match (props props2 : ValueMap) (r r2 : CorrelatedResources)
    (ed ed2 : List (String × String))
    (hin : "10.0.1.10" ∈ extract_ip_addresses props)
    (hnin : "10.0.1.10" ∉ extract_ip_addresses props2)
    (h : correlate ⟨true, true, true⟩ [] [c6Vm props] [samplePool] = .ok (r, ed))
    (h2 : correlate ⟨true, true, true⟩ [] [c6Vm props2] [samplePool] = .ok (r2, ed2)) :
    r.relationships.countP o2vmPred = 1
    ∧ mkPoolVmRel samplePool (c6Vm props) [.vStr "10.0.1.10"] ∈ r.relationships
    ∧ r2.relationships.countP o2vmPred = 0 := by
  obtain ⟨ta, fa, tg, dr, hta, hfa, htg, _, _, hrels, _, _⟩ :=
    correlateWith_ok_inv h
  obtain ⟨ta', fa', tg', dr', hta', hfa', htg', _, _, hrels', _, _⟩ :=
    correlateWith_ok_inv h2
  have hta0 : ta = ([], []) := (Except.ok.inj hta).symm
  have hta0' : ta' = ([], []) := (Except.ok.inj hta').symm
  have hfa0 : fa = ((poolVmRels samplePool [.vStr "10.0.1.10"]
      (nodeIds [] [c6Vm props] [samplePool]) [c6Vm props]).1,
      (poolVmRels samplePool [.vStr "10.0.1.10"]
      (nodeIds [] [c6Vm props] [samplePool]) [c6Vm props]).2) :=
    (Except.ok.inj ((correlateF5xc_c6 props _).symm.trans hfa)).symm
  have hfa0' : fa' = ((poolVmRels samplePool [.vStr "10.0.1.10"]
      (nodeIds [] [c6Vm props2] [samplePool]) [c6Vm props2]).1,
      (poolVmRels samplePool [.vStr "10.0.1.10"]
      (nodeIds [] [c6Vm props2] [samplePool]) [c6Vm props2]).2) :=
    (Except.ok.inj ((correlateF5xc_c6 props2 _).symm.trans hfa')).symm
  have htg0 : tg.countP o2vmPred = 0 :=
    List.countP_eq_zero.mpr fun rel hrel hp => by
      have hk := correlateByTags_rel_kind htg hrel
      simp [o2vmPred, hk] at hp
  have htg0' : tg'.countP o2vmPred = 0 :=
    List.countP_eq_zero.mpr fun rel hrel hp => by
      have hk := correlateByTags_rel_kind htg' hrel
      simp [o2vmPred, hk] at hp
  refine ⟨?_, ?_, ?_⟩
  · rw [hrels, hta0, hfa0]
    rw [poolVmRels_c6_pos hin]
    simp [List.countP_append, depRels, htg0, correlateByIp, o2vmPred,
      mkPoolVmRel]
  · rw [hrels, hta0, hfa0]
    rw [poolVmRels_c6_pos hin]
    simp [depRels, List.mem_append]
  · rw [hrels', hta0', hfa0']
    rw [poolVmRels_c6_neg hnin]
    simp [List.countP_append, depRels, htg0', correlateByIp]

/-! ### C7: tag correlation -/

theorem hEq_eq {v w : Value} (h : hEq v w = true) : v = w := by
  cases v <;> cases w <;> simp_all [hEq]

theorem hEq_refl_of_hashable {v : Value} (h : v.hashable = true) :
    hEq v v = true := by
  cases v <;> simp_all [hEq, Value.hashable]

theorem tagPairBeq_eq {q p : String × Value} (h : tagPairBeq q p = true) :
    q = p := by
  simp only [tagPairBeq, Bool.and_eq_true, beq_iff_eq] at h
  obtain ⟨h1, h2⟩ := h
  obtain ⟨q1, q2⟩ := q
  obtain ⟨p1, p2⟩ := p
  simp only at h1 h2
  rw [h1, hEq_eq h2]

theorem tagPairBeq_refl {p : String × Value} (hp : p.2.hashable = true) :
    tagPairBeq p p = true := by
  simp [tagPairBeq, hEq_refl_of_hashable hp]

theorem mem_idxLookup_map_mono {idx : Idx} {p q : String × Value}
    {id x : String} (hx : x ∈ idxLookup idx q) :
    x ∈ idxLookup
      (idx.map fun e => if tagPairBeq e.1 p = true then (e.1, e.2 ++ [id]) else e)
      q := by
  induction idx with
  | nil => cases hx
  | cons e rest ih =>
    unfold idxLookup at hx
    simp only [List.map_cons]
    by_cases hep : tagPairBeq e.1 p = true
    · rw [if_pos hep]
      unfold idxLookup
      by_cases he : tagPairBeq e.1 q = true
      · rw [if_pos he] at hx
        rw [if_pos he]
        exact List.mem_append_left _ hx
      · rw [if_neg he] at hx
        rw [if_neg he]
        exact ih hx
    · rw [if_neg hep]
      unfold idxLookup
      by_cases he : tagPairBeq e.1 q = true
      · rw [if_pos he] at hx
        rw [if_pos he]
        exact hx
      · rw [if_neg he] at hx
        rw [if_neg he]
        exact ih hx

theorem mem_idxLookup_map_inv {idx : Idx} {p q : String × Value}
    {id x : String}
    (hx : x ∈ idxLookup
      (idx.map fun e => if tagPairBeq e.1 p = true then (e.1, e.2 ++ [id]) else e)
      q) :
    x ∈ idxLookup idx q ∨ x = id := by
  induction idx with
  | nil => cases hx
  | cons e rest ih =>
    simp only [List.map_cons] at hx
    unfold idxLookup
    by_cases hep : tagPairBeq e.1 p = true
    · rw [if_pos hep] at hx
      unfold idxLookup at hx
      by_cases he : tagPairBeq e.1 q = true
      · rw [if_pos he] at hx
        rw [if_pos he]
        rcases List.mem_append.mp hx with hx | hx
        · exact .inl hx
        · exact .inr (List.mem_singleton.mp hx)
      · rw [if_neg he] at hx
        rw [if_neg he]
        exact ih hx
    · rw [if_neg hep] at hx
      unfold idxLookup at hx
      by_cases he : tagPairBeq e.1 q = true
      · rw [if_pos he] at hx
        rw [if_pos he]
        exact .inl hx
      · rw [if_neg he] at hx
        rw [if_neg he]
        exact ih hx

theorem mem_idxLookup_map_self {idx : Idx} {p : String × Value} {id : String}
    (hany : (idx.any fun e => tagPairBeq e.1 p) = true) :
    id ∈ idxLookup
      (idx.map fun e => if tagPairBeq e.1 p = true then (e.1, e.2 ++ [id]) else e)
      p := by
  induction idx with
  | nil => cases hany
  | cons e rest ih =>
    simp only [List.map_cons]
    by_cases hep : tagPairBeq e.1 p = true
    · rw [if_pos hep]
      unfold idxLookup
      rw [if_pos hep]
      exact List.mem_append_right _ (List.mem_singleton.mpr rfl)
    · rw [if_neg hep]
      unfold idxLookup
      rw [if_neg hep]
      refine ih ?_
      rw [List.any_cons] at hany
      rcases Bool.or_eq_true_iff.mp hany with hc | hc
      · exact absurd hc hep
      · exact hc

theorem mem_idxLookup_append_mono {idx tail : Idx} {q : String × Value}
    {x : String} (hx : x ∈ idxLookup idx q) :
    x ∈ idxLookup (idx ++ tail) q := by
  induction idx with
  | nil => cases hx
  | cons e rest ih =>
    unfold idxLookup at hx
    simp only [List.cons_append]
    unfold idxLookup
    by_cases he : tagPairBeq e.1 q = true
    · rw [if_pos he] at hx
      rw [if_pos he]
      exact hx
    · rw [if_neg he] at hx
      rw [if_neg he]
      exact ih hx

theorem mem_idxLookup_append_single_inv {idx : Idx} {p q : String × Value}
    {id x : String} (hx : x ∈ idxLookup (idx ++ [(p, [id])]) q) :
    x ∈ idxLookup idx q ∨ x = id := by
  induction idx with
  | nil =>
    simp only [List.nil_append] at hx
    unfold idxLookup at hx
    split at hx
    · exact .inr (List.mem_singleton.mp hx)
    · cases hx
  | cons e rest ih =>
    simp only [List.cons_append] at hx
    unfold idxLookup at hx ⊢
    by_cases he : tagPairBeq e.1 q = true
    · rw [if_pos he] at hx
      rw [if_pos he]
      exact .inl hx
    · rw [if_neg he] at hx
      rw [if_neg he]
      exact ih hx

theorem mem_idxLookup_append_single_self {idx : Idx} {p : String × Value}
    {id : String}
    (hnone : (idx.any fun e => tagPairBeq e.1 p) = false)
    (hp : p.2.hashable = true) :
    id ∈ idxLookup (idx ++ [(p, [id])]) p := by
  induction idx with
  | nil =>
    simp only [List.nil_append]
    unfold idxLookup
    rw [if_pos (tagPairBeq_refl hp)]
    exact List.mem_singleton.mpr rfl
  | cons e rest ih =>
    simp only [List.cons_append]
    unfold idxLookup
    rw [List.any_cons] at hnone
    rcases Bool.or_eq_false_iff.mp hnone with ⟨h1, h2⟩
    rw [if_neg (by simp [h1])]
    exact ih h2

theorem idxInsert_mem_self {idx : Idx} {p : String × Value} {id : String}
    (hp : p.2.hashable = true) :
    id ∈ idxLookup (idxInsert idx p id) p := by
  unfold idxInsert
  by_cases hany : (idx.any fun e => tagPairBeq e.1 p) = true
  · rw [if_pos hany]
    exact mem_idxLookup_map_self hany
  · rw [if_neg hany]
    exact mem_idxLookup_append_single_self (Bool.eq_false_iff.mpr hany) hp

theorem idxInsert_mem_mono {idx : Idx} {p q : String × Value} {id x : String}
    (hx : x ∈ idxLookup idx q) : x ∈ idxLookup (idxInsert idx p id) q := by
  unfold idxInsert
  by_cases hany : (idx.any fun e => tagPairBeq e.1 p) = true
  · rw [if_pos hany]
    exact mem_idxLookup_map_mono hx
  · rw [if_neg hany]
    exact mem_idxLookup_append_mono hx

theorem idxInsert_mem_inv {idx : Idx} {p q : String × Value} {id x : String}
    (hx : x ∈ idxLookup (idxInsert idx p id) q) :
    x ∈ idxLookup idx q ∨ x = id := by
  unfold idxInsert at hx
  by_cases hany : (idx.any fun e => tagPairBeq e.1 p) = true
  · rw [if_pos hany] at hx
    exact mem_idxLookup_map_inv hx
  · rw [if_neg hany] at hx
    exact mem_idxLookup_append_single_inv hx

theorem idxInsertTags_mem_mono {id2 : String} {items : List (String × Value)}
    {idx idx' : Idx} {q : String × Value} {x : String}
    (h : idxInsertTags id2 items idx = .ok idx')
    (hx : x ∈ idxLookup idx q) : x ∈ idxLookup idx' q := by
  induction items generalizing idx with
  | nil =>
    simp only [idxInsertTags, Except.ok.injEq] at h
    rw [← h]
    exact hx
  | cons kv rest ih =>
    obtain ⟨k0, v0⟩ := kv
    simp only [idxInsertTags] at h
    split at h
    · exact ih h (idxInsert_mem_mono hx)
    · cases h

theorem idxInsertTags_mem_self {id : String} {items : List (String × Value)}
    {idx idx' : Idx} {k : String} {v : Value}
    (h : idxInsertTags id items idx = .ok idx')
    (hkv : (k, v) ∈ items) : id ∈ idxLookup idx' (k, v) := by
  induction items generalizing idx with
  | nil => cases hkv
  | cons kv rest ih =>
    obtain ⟨k0, v0⟩ := kv
    simp only [idxInsertTags] at h
    split at h
    · next hh =>
      rcases List.mem_cons.mp hkv with hkv | hkv
      · injection hkv with h1 h2
        subst h1
        subst h2
        exact idxInsertTags_mem_mono h (idxInsert_mem_self hh)
      · exact ih h hkv
    · cases h

theorem idxInsertTags_mem_inv {id : String} {items : List (String × Value)}
    {idx idx' : Idx} {q : String × Value} {x : String}
    (h : idxInsertTags id items idx = .ok idx')
    (hx : x ∈ idxLookup idx' q) : x ∈ idxLookup idx q ∨ x = id := by
  induction items generalizing idx with
  | nil =>
    simp only [idxInsertTags, Except.ok.injEq] at h
    rw [← h] at hx
    exact .inl hx
  | cons kv rest ih =>
    obtain ⟨k0, v0⟩ := kv
    simp only [idxInsertTags] at h
    split at h
    · rcases ih h with h1 | h1
      · exact idxInsert_mem_inv h1
      · exact .inr h1
    · cases h

theorem idxInsertStrTags_mem_mono {id : String} {tags : List (String × String)}
    {idx : Idx} {q : String × Value} {x : String}
    (hx : x ∈ idxLookup idx q) :
    x ∈ idxLookup (idxInsertStrTags id tags idx) q := by
  induction tags generalizing idx with
  | nil => exact hx
  | cons kv rest ih =>
    obtain ⟨k0, w0⟩ := kv
    exact ih (idxInsert_mem_mono hx)

theorem idxInsertStrTags_mem_self {id : String} {tags : List (String × String)}
    {idx : Idx} {k w : String}
    (hkw : (k, w) ∈ tags) :
    id ∈ idxLookup (idxInsertStrTags id tags idx) (k, .vStr w) := by
  induction tags generalizing idx with
  | nil => cases hkw
  | cons kv rest ih =>
    obtain ⟨k0, w0⟩ := kv
    rcases List.mem_cons.mp hkw with hkw | hkw
    · injection hkw with h1 h2
      subst h1
      subst h2
      show id ∈ idxLookup
        (idxInsertStrTags id rest (idxInsert idx (k, .vStr w) id)) (k, .vStr w)
      exact idxInsertStrTags_mem_mono (idxInsert_mem_self rfl)
    · exact ih hkw

theorem idxInsertStrTags_mem_inv {id : String} {tags : List (String × String)}
    {idx : Idx} {q : String × Value} {x : String}
    (hx : x ∈ idxLookup (idxInsertStrTags id tags idx) q) :
    x ∈ idxLookup idx q ∨ x = id := by
  induction tags generalizing idx with
  | nil => exact .inl hx
  | cons kv rest ih =>
    obtain ⟨k0, w0⟩ := kv
    rcases ih hx with h1 | h1
    · exact idxInsert_mem_inv h1
    · exact .inr h1

theorem indexTfStep_mem_mono {tf : List TerraformResource} {idx0 idx : Idx}
    {q : String × Value} {x : String}
    (h : indexTfStep tf idx0 = .ok idx)
    (hx : x ∈ idxLookup idx0 q) : x ∈ idxLookup idx q := by
  induction tf generalizing idx0 with
  | nil =>
    simp only [indexTfStep, Except.ok.injEq] at h
    rw [← h]
    exact hx
  | cons r rest ih =>
    simp only [indexTfStep] at h
    cases hit : pyItems (r.values.getD "tags" (.vMap .nil)) with
    | error e => simp [hit] at h
    | ok items =>
      simp only [hit] at h
      cases hins : idxInsertTags (sanitize_resource_id r.address) items idx0 with
      | error e => simp [hins] at h
      | ok idx1 =>
        simp only [hins] at h
        exact ih h (idxInsertTags_mem_mono hins hx)

theorem indexTfStep_mem {tf : List TerraformResource} {T : TerraformResource}
    {idx0 idx : Idx} {k : String} {v : Value}
    (h : indexTfStep tf idx0 = .ok idx) (hT : T ∈ tf)
    (hkv : (k, v) ∈ tfTagEntries T) :
    sanitize_resource_id T.address ∈ idxLookup idx (k, v) := by
  induction tf generalizing idx0 with
  | nil => cases hT
  | cons r rest ih =>
    simp only [indexTfStep] at h
    cases hit : pyItems (r.values.getD "tags" (.vMap .nil)) with
    | error e => simp [hit] at h
    | ok items =>
      simp only [hit] at h
      cases hins : idxInsertTags (sanitize_resource_id r.address) items idx0 with
      | error e => simp [hins] at h
      | ok idx1 =>
        simp only [hins] at h
        rcases List.mem_cons.mp hT with hT | hT
        · subst hT
          have hitems : items = tfTagEntries T := by
            unfold tfTagEntries
            cases hv : T.values.getD "tags" (.vMap .nil) with
            | vMap m =>
              rw [hv] at hit
              exact (Except.ok.inj hit).symm
            | vStr s => rw [hv] at hit; cases hit
            | vInt n => rw [hv] at hit; cases hit
            | vNone => rw [hv] at hit; cases hit
            | vList l => rw [hv] at hit; cases hit
          rw [hitems] at hins
          exact indexTfStep_mem_mono h (idxInsertTags_mem_self hins hkv)
        · exact ih h hT

theorem indexTfStep_mem_inv {tf : List TerraformResource} {idx0 idx : Idx}
    {q : String × Value} {x : String}
    (h : indexTfStep tf idx0 = .ok idx) (hx : x ∈ idxLookup idx q) :
    x ∈ idxLookup idx0 q ∨ ∃ T ∈ tf, x = sanitize_resource_id T.address := by
  induction tf generalizing idx0 with
  | nil =>
    simp only [indexTfStep, Except.ok.injEq] at h
    rw [← h] at hx
    exact .inl hx
  | cons r rest ih =>
    simp only [indexTfStep] at h
    cases hit : pyItems (r.values.getD "tags" (.vMap .nil)) with
    | error e => simp [hit] at h
    | ok items =>
      simp only [hit] at h
      cases hins : idxInsertTags (sanitize_resource_id r.address) items idx0 with
      | error e => simp [hins] at h
      | ok idx1 =>
        simp only [hins] at h
        rcases ih h with h1 | ⟨T, hT, hxT⟩
        · rcases idxInsertTags_mem_inv hins h1 with h2 | h2
          · exact .inl h2
          · exact .inr ⟨r, List.mem_cons_self r rest, h2⟩
        · exact .inr ⟨T, List.mem_cons_of_mem r hT, hxT⟩

theorem indexAzStep_mem_mono {az : List AzureResource} {idx0 : Idx}
    {q : String × Value} {x : String}
    (hx : x ∈ idxLookup idx0 q) : x ∈ idxLookup (indexAzStep az idx0) q := by
  induction az generalizing idx0 with
  | nil => exact hx
  | cons a rest ih => exact ih (idxInsertStrTags_mem_mono hx)

theorem indexAzStep_mem {az : List AzureResource} {A : AzureResource}
    {idx0 : Idx} {k w : String}
    (hA : A ∈ az) (hkw : (k, w) ∈ A.tags) :
    sanitize_resource_id A.id ∈ idxLookup (indexAzStep az idx0) (k, .vStr w) := by
  induction az generalizing idx0 with
  | nil => cases hA
  | cons a rest ih =>
    rcases List.mem_cons.mp hA with hA | hA
    · subst hA
      show sanitize_resource_id A.id ∈ idxLookup
        (indexAzStep rest (idxInsertStrTags (sanitize_resource_id A.id) A.tags idx0))
        (k, .vStr w)
      exact indexAzStep_mem_mono (idxInsertStrTags_mem_self hkw)
    · exact ih hA

theorem indexAzStep_mem_inv {az : List AzureResource} {idx0 : Idx}
    {q : String × Value} {x : String}
    (hx : x ∈ idxLookup (indexAzStep az idx0) q) :
    x ∈ idxLookup idx0 q ∨ ∃ A ∈ az, x = sanitize_resource_id A.id := by
  induction az generalizing idx0 with
  | nil => exact .inl hx
  | cons a rest ih =>
    rcases ih hx with h1 | ⟨A, hA, hxA⟩
    · rcases idxInsertStrTags_mem_inv h1 with h2 | h2
      · exact .inl h2
      · exact .inr ⟨a, List.mem_cons_self a rest, h2⟩
    · exact .inr ⟨A, List.mem_cons_of_mem a hA, hxA⟩

theorem dedupPairs_mem_of_mem {p : String × Value} {l : List (String × Value)}
    (h : p ∈ l) : p ∈ dedupPairs l := by
  induction l with
  | nil => cases h
  | cons q rest ih =>
    simp only [dedupPairs]
    rcases List.mem_cons.mp h with h | h
    · subst h
      by_cases hm : pairMem p (dedupPairs rest) = true
      · rw [if_pos hm]
        obtain ⟨s, hs, hb⟩ := List.any_eq_true.mp hm
        exact (tagPairBeq_eq hb) ▸ hs
      · rw [if_neg hm]
        exact List.mem_cons_self _ _
    · by_cases hm : pairMem q (dedupPairs rest) = true
      · rw [if_pos hm]
        exact ih h
      · rw [if_neg hm]
        exact List.mem_cons_of_mem q (ih h)

theorem correlateByTags_true_inv {tf : List TerraformResource}
    {az : List AzureResource} {fx : List F5XCResource}
    {ord : List (String × Value)} {tg : List ResourceRelationship}
    (h : correlateByTags true tf az fx ord = .ok tg) :
    ∃ tfIdx fxIdx, indexTfStep tf [] = .ok tfIdx
      ∧ indexFxStep fx [] = .ok fxIdx
      ∧ tg = tagRelsFor tfIdx (indexAzStep az []) ord := by
  unfold correlateByTags at h
  simp only [if_true] at h
  cases hti : indexTfStep tf [] with
  | error e => simp [hti] at h
  | ok tfIdx =>
    simp only [hti] at h
    cases hfi : indexFxStep fx [] with
    | error e => simp [hfi] at h
    | ok fxIdx =>
      simp only [hfi, Except.ok.injEq] at h
      exact ⟨tfIdx, fxIdx, rfl, rfl, h.symm⟩

theorem tagRelsFor_mem_of {tfIdx azIdx : Idx} {ord : List (String × Value)}
    {p : String × Value} {tfId azId : String}
    (hp : p ∈ ord) (h1 : tfId ∈ idxLookup tfIdx p)
    (h2 : azId ∈ idxLookup azIdx p) :
    mkTagRel p tfId azId ∈ tagRelsFor tfIdx azIdx ord := by
  refine List.mem_flatMap.mpr ⟨p, hp, ?_⟩
  refine List.mem_flatMap.mpr ⟨tfId, h1, ?_⟩
  exact List.mem_map.mpr ⟨azId, h2, rfl⟩

theorem tagRelsFor_mem_inv {tfIdx azIdx : Idx} {ord : List (String × Value)}
    {rel : ResourceRelationship} (h : rel ∈ tagRelsFor tfIdx azIdx ord) :
    ∃ p tfId azId, tfId ∈ idxLookup tfIdx p ∧ azId ∈ idxLookup azIdx p
      ∧ rel = mkTagRel p tfId azId := by
  obtain ⟨p, _, hin⟩ := List.mem_flatMap.mp h
  obtain ⟨tfId, h1, hin2⟩ := List.mem_flatMap.mp hin
  obtain ⟨azId, h2, hrel⟩ := List.mem_map.mp hin2
  exact ⟨p, tfId, azId, h1, h2, hrel.symm⟩

/-- C7: tag correlation.  (a) With `matchByTags = false` a successful run
emits zero generic-tag-match relationships.  (b) With `matchByTags =
true`, every `(tagKey, tagValue)` pair shared between a Declared record
and an Observed-Cloud record yields the generic-tag-match relationship
from the Declared to the Observed-Cloud sanitized key, with the pair in
its metadata.  (c) Every emitted generic-tag-match relationship has a
Declared source and an Observed-Cloud target — never an Observed-Edge
endpoint, even when an Observed-Edge record carries the same labels. -/
theorem c7_tag_correlation (tf : List TerraformResource)
    (az : List AzureResource) (fx : List F5XCResource) (mi dd : Bool)
    (r0 r : CorrelatedResources) (ed0 ed : List (String × String))
    (h0 : correlate ⟨false, mi, dd⟩ tf az fx = .ok (r0, ed0))
    (h1 : correlate ⟨true, mi, dd⟩ tf az fx = .ok (r, ed)) :
    r0.relationships.countP genericPred = 0
    ∧ (∀ T ∈ tf, ∀ A ∈ az, ∀ k w : String,
        (k, Value.vStr w) ∈ tfTagEntries T → (k, w) ∈ A.tags →
        mkTagRel (k, .vStr w) (sanitize_resource_id T.address)
          (sanitize_resource_id A.id) ∈ r.relationships)
    ∧ (∀ rel ∈ r.relationships,
        rel.relationship_type = RelationshipType.generic_dependency →
        (∃ T ∈ tf, rel.source_id = sanitize_resource_id T.address)
        ∧ (∃ A ∈ az, rel.target_id = sanitize_resource_id A.id)) := by
  obtain ⟨ta0, fa0, tg0, dr0, hta0, hfa0, htg0, _, _, hrels0, _, _⟩ :=
    correlateWith_ok_inv h0
  obtain ⟨ta, fa, tg, dr, hta, hfa, htg, _, _, hrels, _, _⟩ :=
    correlateWith_ok_inv h1
  obtain ⟨ta01, ta02⟩ := ta0
  obtain ⟨fa01, fa02⟩ := fa0
  obtain ⟨ta1, ta2⟩ := ta
  obtain ⟨fa1, fa2⟩ := fa
  have htg0' : tg0 = [] := by
    have h' : correlateByTags false tf az fx
        (canonicalTagOrder tf az fx) = .ok tg0 := htg0
    unfold correlateByTags at h'
    simp only [Bool.false_eq_true, if_false, Except.ok.injEq] at h'
    exact h'.symm
  obtain ⟨tfIdx, fxIdx, hti, hfi, htgRels⟩ := correlateByTags_true_inv
    (show correlateByTags true tf az fx
      (canonicalTagOrder tf az fx) = .ok tg from htg)
  refine ⟨?_, ?_, ?_⟩
  · rw [hrels0]
    rw [List.countP_append, List.countP_append, List.countP_append,
      List.countP_append]
    have z0 : (depRels tf).countP genericPred = 0 :=
      List.countP_eq_zero.mpr fun rel hrel hp => by
        have hk := depRels_kind hrel
        simp [genericPred, hk] at hp
    have z1 : ta01.countP genericPred = 0 :=
      List.countP_eq_zero.mpr fun rel hrel hp => by
        have hk := tfAzStep_rel_kind hta0 hrel
        simp [genericPred, hk] at hp
    have z2 : fa01.countP genericPred = 0 :=
      List.countP_eq_zero.mpr fun rel hrel hp => by
        rcases fxAzStep_rel_kind hfa0 hrel with hk | hk <;>
          simp [genericPred, hk] at hp
    have z4 : (correlateByIp mi).countP genericPred = 0 := by
      have : correlateByIp (Options.mk false mi dd).match_by_ip = [] :=
        correlateByIp_eq_nil _
      rw [this]
      rfl
    rw [z0, z1, z2, htg0', z4]
    rfl
  · intro T hT A hA k w htags hkw
    have hp : (k, Value.vStr w) ∈ canonicalTagOrder tf az fx := by
      refine dedupPairs_mem_of_mem ?_
      refine List.mem_append_left _ (List.mem_append_left _ ?_)
      exact List.mem_flatMap.mpr ⟨T, hT, htags⟩
    have hs : sanitize_resource_id T.address ∈ idxLookup tfIdx (k, .vStr w) :=
      indexTfStep_mem hti hT htags
    have ha : sanitize_resource_id A.id
        ∈ idxLookup (indexAzStep az []) (k, .vStr w) :=
      indexAzStep_mem hA hkw
    have hmem : mkTagRel (k, .vStr w) (sanitize_resource_id T.address)
        (sanitize_resource_id A.id) ∈ tg := by
      rw [htgRels]
      exact tagRelsFor_mem_of hp hs ha
    rw [hrels]
    exact List.mem_append_left _ (List.mem_append_right _ hmem)
  · intro rel hrel hkind
    rw [hrels] at hrel
    rcases List.mem_append.mp hrel with hrel | hrel
    · rcases List.mem_append.mp hrel with hrel | hrel
      · rcases List.mem_append.mp hrel with hrel | hrel
        · rcases List.mem_append.mp hrel with hrel | hrel
          · rw [depRels_kind hrel] at hkind
            cases hkind
          · rw [tfAzStep_rel_kind hta hrel] at hkind
            cases hkind
        · rcases fxAzStep_rel_kind hfa hrel with hk | hk <;>
            rw [hk] at hkind <;> cases hkind
      · rw [htgRels] at hrel
        obtain ⟨p, tfId, azId, hs, ha, hrel'⟩ := tagRelsFor_mem_inv hrel
        constructor
        · rcases indexTfStep_mem_inv hti hs with hc | ⟨T, hT, hxT⟩
          · cases hc
          · exact ⟨T, hT, by rw [hrel', hxT]; rfl⟩
        · rcases indexAzStep_mem_inv ha with hc | ⟨A, hA, hxA⟩
          · cases hc
          · exact ⟨A, hA, by rw [hrel', hxA]; rfl⟩
    · have : correlateByIp (Options.mk true mi dd).match_by_ip = [] :=
        correlateByIp_eq_nil _
      rw [this] at hrel
      cases hrel

/-- C7 witness: a concrete pair of runs (flag off / flag on) over records
sharing the tag `env: prod`. -/
theorem c7_tag_correlation_witness :
    (resultOf (correlate ⟨false, true, true⟩ [c4Tf] [c4Az] [])).1.relationships.countP
      genericPred = 0 :=
  (c7_tag_correlation [c4Tf] [c4Az] [] true true _ _ _ _ rfl rfl).1

/-- C6 witness: the repository's own fixture properties (IP reachable by
the scan) against properties whose IP hides inside a nested list. -/
theorem c6_ip_match_witness :
    "10.0.1.10" ∈ extract_ip_addresses sampleVmProps
    ∧ "10.0.1.10" ∉ extract_ip_addresses c6NestedProps
    ∧ (resultOf (correlate ⟨true, true, true⟩ [] [c6Vm sampleVmProps]
        [samplePool])).1.relationships.countP o2vmPred = 1 :=
  ⟨by decide, by decide,
   (c6_ip_match sampleVmProps c6NestedProps _ _ _ _
     (by decide) (by decide) rfl rfl).1⟩

/-- C5: on the tag-drift scenario (Declared `attributes.id = X`,
`attributes.tags = {"env": "dev"}`; Observed-Cloud `id = X`,
`tags = {"env": "prod"}`), a successful run with `detectDrift = true`
reports exactly one tag-mismatch drift entry carrying the Declared
record's address, and a successful run with `detectDrift = false`
reports zero drift entries. -/
theorem c5_tag_drift (X addr tname ttype aname atype loc rg : String)
    (mt mi : Bool) (r r2 : CorrelatedResources)
    (ed ed2 : List (String × String))
    (hX : X ≠ "")
    (h1 : correlate ⟨mt, mi, true⟩ [c5Declared ttype tname addr X]
            [c5Observed X aname atype loc rg] [] = .ok (r, ed))
    (h2 : correlate ⟨mt, mi, false⟩ [c5Declared ttype tname addr X]
            [c5Observed X aname atype loc rg] [] = .ok (r2, ed2)) :
    r.drift = [c5Drift addr tname] ∧ r2.drift = [] := by
  refine ⟨?_, drift_flag_false h2⟩
  obtain ⟨ta, fa, tg, dr, _, _, _, h4, _, _, hdr, _⟩ := correlateWith_ok_inv h1
  simp only [if_pos] at h4
  rw [detectDrift_c5 X addr tname ttype aname atype loc rg hX] at h4
  injection h4 with h5
  rw [hdr, ← h5]

/-- C5 witness: the scenario instantiated with concrete strings. -/
theorem c5_tag_drift_witness :
    ("/subscriptions/s/x" : String) ≠ ""
    ∧ (resultOf (correlate ⟨true, true, true⟩
        [c5Declared "azurerm_virtual_network" "main" "azurerm_virtual_network.main" "/subscriptions/s/x"]
        [c5Observed "/subscriptions/s/x" "vnet-main" "Microsoft.Network/virtualNetworks" "eastus" "rg"]
        [])).1.drift = [c5Drift "azurerm_virtual_network.main" "main"] :=
  ⟨by decide,
   (c5_tag_drift "/subscriptions/s/x" "azurerm_virtual_network.main" "main"
     "azurerm_virtual_network" "vnet-main" "Microsoft.Network/virtualNetworks"
     "eastus" "rg" true true _ _ _ _ (by decide) rfl rfl).1⟩

end Correlation
